import Mathlib

/-!
Verification of the pivot transformation and aggregation engine of the
Custom-Matrix-PCF control.

The development is a shallow embedding of the TypeScript sources:

* `transformDatasetToPivot` — the pivot engine (validation, record scan,
  cell accumulation, aggregation, smart sorting of axis labels);
* the totals computation of the `PivotTable` component (column totals,
  row totals and the grand total);
* `toggleGroup` — the expand/collapse state update of the grouped view.

Modelling conventions:

* JavaScript numbers are modelled as exact rationals extended with `NaN`
  and the two signed infinities (`JSNum`).  Floating point rounding is not
  modelled; all arithmetic in the claims is exact in both models.
* JS `Map` objects are modelled as insertion-ordered association lists
  (`mapGet` / `mapSet` mirror `Map.get` / `Map.set`, including the
  update-in-place-else-append behaviour of `set`).
* JS `Set` objects used for the axis key sets are modelled as
  insertion-ordered duplicate-free lists (`addSet` mirrors `Set.add`);
  the collapsed-group set of `toggleGroup` is modelled as a `Finset`
  since only membership matters there.
* `Number(string)` is modelled by `parseJSNumber` over the decimal,
  hexadecimal, octal, binary and `Infinity` string-number grammar of
  ECMAScript; `NaN` is `JSNum.nan`.
* `localeCompare(b, undefined, { numeric: true, sensitivity: "base" })`
  is modelled by `natCompare`: digit runs compare by numeric value,
  other characters case-insensitively by code point, digits before
  letters.
* `new Date(x).getTime()` on a string argument (date-string parsing) is
  modelled as an invalid date (`NaN`); no claim depends on it.
-/

namespace CustomMatrix

/-- JavaScript number values: `NaN`, the signed infinities, or a finite
value modelled as an exact rational. -/
inductive JSNum where
  | nan
  | posInf
  | negInf
  | val (q : ℚ)
deriving DecidableEq, Repr

/-- JS `+` on numbers: `NaN` propagates, opposite infinities give `NaN`. -/
def jsAdd : JSNum → JSNum → JSNum
  | .nan, _ => .nan
  | _, .nan => .nan
  | .posInf, .negInf => .nan
  | .negInf, .posInf => .nan
  | .posInf, _ => .posInf
  | _, .posInf => .posInf
  | .negInf, _ => .negInf
  | _, .negInf => .negInf
  | .val a, .val b => .val (a + b)

/-- JS `Math.min` on two numbers: any `NaN` argument gives `NaN`. -/
def jsMin2 : JSNum → JSNum → JSNum
  | .nan, _ => .nan
  | _, .nan => .nan
  | .negInf, _ => .negInf
  | _, .negInf => .negInf
  | .posInf, b => b
  | a, .posInf => a
  | .val a, .val b => .val (min a b)

/-- JS `Math.max` on two numbers: any `NaN` argument gives `NaN`. -/
def jsMax2 : JSNum → JSNum → JSNum
  | .nan, _ => .nan
  | _, .nan => .nan
  | .posInf, _ => .posInf
  | _, .posInf => .posInf
  | .negInf, b => b
  | a, .negInf => a
  | .val a, .val b => .val (max a b)

/-- `values.reduce((sum, val) => sum + val, 0)`. -/
def jsSum (l : List JSNum) : JSNum := l.foldl jsAdd (JSNum.val 0)

/-- `Math.min(...values)`: fold of `Math.min` starting from `Infinity`. -/
def jsMinList (l : List JSNum) : JSNum := l.foldl jsMin2 JSNum.posInf

/-- `Math.max(...values)`: fold of `Math.max` starting from `-Infinity`. -/
def jsMaxList (l : List JSNum) : JSNum := l.foldl jsMax2 JSNum.negInf

/-- Division of a JS number by a (positive) element count, used by the
`AVG` aggregation.  All call sites guard the count to be positive. -/
def jsDivNat (a : JSNum) (n : ℕ) : JSNum :=
  match a with
  | .nan => .nan
  | .posInf => .posInf
  | .negInf => .negInf
  | .val q => .val (q / n)

/-- Three-way comparison of rationals. -/
def qCompare (a b : ℚ) : Ordering :=
  if a < b then .lt else if b < a then .gt else .eq

/-- Sign of `aNum - bNum` for the numeric branch of the smart comparator.
Both arguments are non-`NaN` at the call site; equal infinities give `eq`
(the ECMAScript sort maps a `NaN` comparator result to `+0`). -/
def jsNumCompare : JSNum → JSNum → Ordering
  | .nan, _ => .eq
  | _, .nan => .eq
  | .negInf, .negInf => .eq
  | .negInf, _ => .lt
  | _, .negInf => .gt
  | .posInf, .posInf => .eq
  | .posInf, _ => .gt
  | _, .posInf => .lt
  | .val a, .val b => qCompare a b

/-! ### The ECMAScript string-to-number conversion (`Number(s)`) -/

/-- White space trimmed by `Number(string)`. -/
def isJSWhitespace (c : Char) : Bool :=
  c = ' ' || c = '\t' || c = '\n' || c = '\r'

def digitVal (c : Char) : ℕ := c.toNat - 48

def digitsToNat (ds : List Char) : ℕ :=
  ds.foldl (fun n c => 10 * n + digitVal c) 0

def isHexDigitChar (c : Char) : Bool :=
  c.isDigit || ('a' ≤ c && c ≤ 'f') || ('A' ≤ c && c ≤ 'F')

def hexVal (c : Char) : ℕ :=
  if c.isDigit then digitVal c
  else if 'a' ≤ c then c.toNat - 87
  else c.toNat - 55

/-- The optional fraction part: splits `". digits rest"` into the fraction
digits and the remainder. -/
def splitFrac : List Char → List Char × List Char
  | '.' :: t => (t.takeWhile Char.isDigit, t.drop (t.takeWhile Char.isDigit).length)
  | r => ([], r)

/-- The exponent tail `e[±]digits` (which must consume the whole rest). -/
def parseExponentTail (cs : List Char) : Option ℤ :=
  match cs with
  | [] => none
  | c :: r =>
    if c = 'e' ∨ c = 'E' then
      let p : ℤ × List Char :=
        match r with
        | '+' :: t => (1, t)
        | '-' :: t => (-1, t)
        | _ => (1, r)
      let eds := p.2.takeWhile Char.isDigit
      if eds.isEmpty then none
      else if (p.2.drop eds.length).isEmpty then some (p.1 * digitsToNat eds)
      else none
    else none

/-- A decimal literal `digits [. digits] [e[±]digits]` (at least one digit
somewhere, fully consumed). -/
def parseDecimalBody (cs : List Char) : Option ℚ :=
  let intDs := cs.takeWhile Char.isDigit
  let r1 := cs.drop intDs.length
  let fr := splitFrac r1
  if intDs.isEmpty ∧ fr.1.isEmpty then none
  else
    let mant : ℚ :=
      (digitsToNat intDs : ℚ) + (digitsToNat fr.1 : ℚ) / ((10 : ℚ) ^ fr.1.length)
    match fr.2 with
    | [] => some mant
    | rest =>
      match parseExponentTail rest with
      | some e => some (mant * (10 : ℚ) ^ e)
      | none => none

/-- An unsigned string-number body: `Infinity` or a decimal literal. -/
def parseUnsigned (cs : List Char) : JSNum :=
  if cs = "Infinity".toList then .posInf
  else
    match parseDecimalBody cs with
    | some q => .val q
    | none => .nan

/-- A non-decimal integer literal body in the given radix. -/
def parseRadix (radix : ℕ) (ok : Char → Bool) (dval : Char → ℕ) (cs : List Char) : JSNum :=
  if cs ≠ [] ∧ cs.all ok then
    .val ((cs.foldl (fun n c => radix * n + dval c) 0 : ℕ) : ℚ)
  else .nan

/-- `Number(s)` for strings: trim white space; empty gives `0`; an optional
sign applies to a decimal literal or `Infinity`; `0x`/`0o`/`0b` prefixes
(no sign allowed) give non-decimal integer literals; anything else is
`NaN`. -/
def parseJSNumber (s : String) : JSNum :=
  let cs := ((s.toList.dropWhile isJSWhitespace).reverse.dropWhile isJSWhitespace).reverse
  match cs with
  | [] => .val 0
  | '+' :: t => parseUnsigned t
  | '-' :: t =>
    match parseUnsigned t with
    | .posInf => .negInf
    | .negInf => .nan
    | .nan => .nan
    | .val q => .val (-q)
  | '0' :: 'x' :: t => parseRadix 16 isHexDigitChar hexVal t
  | '0' :: 'X' :: t => parseRadix 16 isHexDigitChar hexVal t
  | '0' :: 'o' :: t => parseRadix 8 (fun c => '0' ≤ c && c ≤ '7') digitVal t
  | '0' :: 'O' :: t => parseRadix 8 (fun c => '0' ≤ c && c ≤ '7') digitVal t
  | '0' :: 'b' :: t => parseRadix 2 (fun c => c = '0' || c = '1') digitVal t
  | '0' :: 'B' :: t => parseRadix 2 (fun c => c = '0' || c = '1') digitVal t
  | _ => parseUnsigned cs

/-! ### The natural, case-insensitive collation
(`a.localeCompare(b, undefined, { numeric: true, sensitivity: "base" })`) -/

/-- A collation token: a digit run taken by numeric value, or a single
case-folded character. -/
inductive NatToken where
  | num (n : ℕ)
  | chr (c : Char)
deriving DecidableEq, Repr

/-- Tokenizer for the natural collation; the accumulator carries the value
of the digit run currently being read. -/
def tokenizeAux : List Char → Option ℕ → List NatToken
  | [], none => []
  | [], some n => [.num n]
  | c :: rest, acc =>
    if c.isDigit then tokenizeAux rest (some (10 * acc.getD 0 + digitVal c))
    else
      match acc with
      | some n => .num n :: .chr c.toLower :: tokenizeAux rest none
      | none => .chr c.toLower :: tokenizeAux rest none

def tokenize (s : String) : List NatToken := tokenizeAux s.toList none

def natCmp (a b : ℕ) : Ordering :=
  if a < b then .lt else if b < a then .gt else .eq

/-- Token comparison: digit runs by value, digits before letters,
characters case-insensitively by code point. -/
def tokCmp : NatToken → NatToken → Ordering
  | .num a, .num b => natCmp a b
  | .num _, .chr _ => .lt
  | .chr _, .num _ => .gt
  | .chr a, .chr b => natCmp a.toNat b.toNat

def tokListCmp : List NatToken → List NatToken → Ordering
  | [], [] => .eq
  | [], _ :: _ => .lt
  | _ :: _, [] => .gt
  | a :: as, b :: bs =>
    match tokCmp a b with
    | .eq => tokListCmp as bs
    | o => o

/-- The natural-sort case-insensitive text comparison. -/
def natCompare (a b : String) : Ordering := tokListCmp (tokenize a) (tokenize b)

/-- The `smartSort` comparator of `transformDatasetToPivot`: if both labels
parse as numbers (`!isNaN`), compare numerically, otherwise by the natural
collation. -/
def smartSortCmp (a b : String) : Ordering :=
  match parseJSNumber a, parseJSNumber b with
  | .nan, _ => natCompare a b
  | _, .nan => natCompare a b
  | x, y => jsNumCompare x y

/-- `smartSortCmp a b ≤ 0`, the order relation induced by the comparator. -/
def smartLe (a b : String) : Prop := smartSortCmp a b ≠ .gt

instance : DecidableRel smartLe := fun a b =>
  if h : smartSortCmp a b = .gt then .isFalse (fun hn => hn h) else .isTrue h

/-- `Array.prototype.sort(smartSort)`, a stable comparison sort. -/
def sortSmart (l : List String) : List String := List.insertionSort smartLe l

/-! ### The data model of the dataset boundary -/

/-- A raw field value as returned by `record.getValue`: a number, a string,
a two-state boolean, or a date (carried as its epoch-millisecond value). -/
inductive JSVal where
  | num (q : ℚ)
  | str (s : String)
  | boolean (b : Bool)
  | date (ms : ℤ)
deriving DecidableEq, Repr

/-- A dataset column: logical name and semantic data-type tag. -/
structure Column where
  name : String
  dataType : String
deriving DecidableEq, Repr

/-- A dataset record: per-field raw values (`getValue`, `none` for
null/absent) and per-field formatted display values
(`getFormattedValue`). -/
structure EntityRecord where
  rawValues : List (String × Option JSVal)
  formattedValues : List (String × Option String)
deriving DecidableEq, Repr

/-- A dataset: its column descriptors and its records in
`sortedRecordIds` order. -/
structure Dataset where
  columns : List Column
  records : List EntityRecord
deriving DecidableEq, Repr

/-- `Map.get` on an insertion-ordered association list. -/
def mapGet {β : Type} : List (String × β) → String → Option β
  | [], _ => none
  | (k0, v) :: rest, k => if k0 = k then some v else mapGet rest k

/-- `Map.set`: update in place if the key is present, else append. -/
def mapSet {β : Type} : List (String × β) → String → β → List (String × β)
  | [], k, v => [(k, v)]
  | (k0, v0) :: rest, k, v =>
    if k0 = k then (k0, v) :: rest else (k0, v0) :: mapSet rest k v

/-- The keys of an association list, in order. -/
def mapKeys {β : Type} (m : List (String × β)) : List String := m.map (·.1)

/-- `Set.add` on an insertion-ordered duplicate-free list. -/
def addSet (l : List String) (x : String) : List String :=
  if x ∈ l then l else l ++ [x]

/-- `record.getValue(field)`; an unknown field reads as null. -/
def getValue (r : EntityRecord) (f : String) : Option JSVal := (mapGet r.rawValues f).getD none

/-- `record.getFormattedValue(field)`. -/
def getFormattedValue (r : EntityRecord) (f : String) : Option String :=
  (mapGet r.formattedValues f).getD none

/-- `String(v)` for raw values.  Rendering of numbers and dates as text is
only exercised by key derivation on number/date-typed grouping fields; the
chosen representations are deterministic stand-ins. -/
def jsValToString : JSVal → String
  | .num q => toString q
  | .str s => s
  | .boolean b => if b then "true" else "false"
  | .date ms => "Date(" ++ toString ms ++ ")"

/-- `Number(rawValue)` for raw values (`Number` of a `Date` is its epoch
milliseconds). -/
def jsToNumber : JSVal → JSNum
  | .num q => .val q
  | .str s => parseJSNumber s
  | .boolean b => .val (if b then 1 else 0)
  | .date ms => .val (ms : ℚ)

/-- The date branch of the value conversion: `getTime()` of the value as a
`Date`.  A string raw value would be parsed as a date string; that parse is
modelled as an invalid date (`NaN`), as is the `String(...)` fallback for
other values. -/
def jsToDateMillis : JSVal → JSNum
  | .date ms => .val (ms : ℚ)
  | .num q => .val q
  | .str _ => .nan
  | .boolean _ => .nan

/-! ### The pivot engine (`transformDatasetToPivot`) -/

/-- The aggregation type of the pivot configuration. -/
inductive Agg where
  | COUNT
  | SUM
  | AVG
  | MIN
  | MAX
deriving DecidableEq, Repr

/-- The pivot configuration (`IPivotConfig`). -/
structure IPivotConfig where
  groupByRow : String
  groupByColumn : String
  valueField : String
  aggregationType : Agg
deriving DecidableEq, Repr

/-- A cell accumulator (`ICellData`): the non-null numeric contributions in
order, and the count of registered records. -/
structure CellData where
  values : List JSNum
  count : ℕ
deriving DecidableEq, Repr

/-- The pivot result (`IPivotData`): sorted axis label sequences and the
sparse cell mapping. -/
structure IPivotData where
  rowKeys : List String
  columnKeys : List String
  gridData : List (String × JSNum)
deriving DecidableEq, Repr

/-- The error outcomes of `transformDatasetToPivot` (each `throw` site of
the source, identified by its message). -/
inductive TransformError where
  | datasetNotConfigured
  | rowFieldNotFound
  | columnFieldNotFound
  | valueFieldNotFound
  | rowFieldLookup
  | columnFieldLookup
  | incompatibleAggregation
deriving DecidableEq, Repr

/-- `dataset.columns.find(col => col.name === name)`. -/
def findColumn (cols : List Column) (name : String) : Option Column :=
  cols.find? (fun c => c.name = name)

def lookupTypes : List String :=
  ["Lookup.Simple", "Lookup.Customer", "Lookup.Owner", "Lookup.PartyList", "Lookup.Regarding"]

def isLookupType (dt : String) : Bool := decide (dt ∈ lookupTypes)

/-- The numeric data types (`Whole.None`, `Decimal`, `Currency`, `FP`). -/
def isNumericType (dt : String) : Bool :=
  decide (dt ∈ ["Whole.None", "Decimal", "Currency", "FP"])

/-- The temporal data types. -/
def isDateType (dt : String) : Bool :=
  decide (dt ∈ ["DateAndTime.DateOnly", "DateAndTime.DateAndTime"])

def optionSetTypes : List String := ["OptionSet", "TwoOptions", "MultiSelectOptionSet"]

/-- Row/column key derivation: formatted value (falling back to
`"(Blank)"` when null or empty) for option-set-like fields, otherwise the
string form of the raw value with the same fallback for null. -/
def deriveKey (col : Column) (fieldName : String) (r : EntityRecord) : String :=
  if col.dataType ∈ optionSetTypes then
    match getFormattedValue r fieldName with
    | some s => if s = "" then "(Blank)" else s
    | none => "(Blank)"
  else
    match getValue r fieldName with
    | some v => jsValToString v
    | none => "(Blank)"

/-- The composite cell key `rowKey + "_|_" + columnKey`. -/
def cellKey (rowKey columnKey : String) : String := rowKey ++ "_|_" ++ columnKey

/-- The mutable state of the record scan: the two axis key sets and the
cell accumulator map. -/
structure PivotState where
  rowSet : List String
  columnSet : List String
  cellDataMap : List (String × CellData)
deriving DecidableEq, Repr

def initState : PivotState := ⟨[], [], []⟩

/-- The null-value `COUNT` branch of the scan: register the axis keys and
bump the cell count without appending a value. -/
def registerNullCount (st : PivotState) (rowKey columnKey : String) : PivotState :=
  let k := cellKey rowKey columnKey
  let cd := (mapGet st.cellDataMap k).getD ⟨[], 0⟩
  { rowSet := addSet st.rowSet rowKey
    columnSet := addSet st.columnSet columnKey
    cellDataMap := mapSet st.cellDataMap k ⟨cd.values, cd.count + 1⟩ }

/-- The non-null branch of the scan: register the axis keys and append the
converted numeric value to the cell accumulator. -/
def registerValue (st : PivotState) (rowKey columnKey : String) (v : JSNum) : PivotState :=
  let k := cellKey rowKey columnKey
  let cd := (mapGet st.cellDataMap k).getD ⟨[], 0⟩
  { rowSet := addSet st.rowSet rowKey
    columnSet := addSet st.columnSet columnKey
    cellDataMap := mapSet st.cellDataMap k ⟨cd.values ++ [v], cd.count + 1⟩ }

/-- The body of the `sortedRecordIds.forEach` loop. -/
def processRecord (rowCol columnCol : Column) (cfg : IPivotConfig) (dateField : Bool)
    (st : PivotState) (r : EntityRecord) : PivotState :=
  let rowKey := deriveKey rowCol cfg.groupByRow r
  let columnKey := deriveKey columnCol cfg.groupByColumn r
  match getValue r cfg.valueField with
  | none =>
    if cfg.aggregationType = .COUNT then registerNullCount st rowKey columnKey else st
  | some rawValue =>
    registerValue st rowKey columnKey
      (if dateField then jsToDateMillis rawValue else jsToNumber rawValue)

/-- The per-cell aggregation (`switch (config.aggregationType)`); `none`
means the cell is left out of `gridData`. -/
def aggregateCell (agg : Agg) (cd : CellData) : Option JSNum :=
  match agg with
  | .COUNT => some (.val cd.count)
  | .SUM => some (jsSum cd.values)
  | .AVG =>
    if cd.values.length = 0 then none
    else some (jsDivNat (jsSum cd.values) cd.values.length)
  | .MIN => if cd.values.length > 0 then some (jsMinList cd.values) else none
  | .MAX => if cd.values.length > 0 then some (jsMaxList cd.values) else none

/-- The `cellDataMap.forEach` loop building `gridData`. -/
def buildGridData (agg : Agg) (m : List (String × CellData)) : List (String × JSNum) :=
  m.foldl
    (fun g e =>
      match aggregateCell agg e.2 with
      | some v => mapSet g e.1 v
      | none => g)
    []

/-- `transformDatasetToPivot(dataset, config)`. -/
def transformDatasetToPivot (ds : Dataset) (cfg : IPivotConfig) :
    Except TransformError IPivotData :=
  if ds.columns.isEmpty then .error .datasetNotConfigured
  else if ds.records.isEmpty then .ok ⟨[], [], []⟩
  else
    match findColumn ds.columns cfg.groupByRow with
    | none => .error .rowFieldNotFound
    | some rowCol =>
      match findColumn ds.columns cfg.groupByColumn with
      | none => .error .columnFieldNotFound
      | some columnCol =>
        match findColumn ds.columns cfg.valueField with
        | none => .error .valueFieldNotFound
        | some valueCol =>
          if isLookupType rowCol.dataType then .error .rowFieldLookup
          else if isLookupType columnCol.dataType then .error .columnFieldLookup
          else if (cfg.aggregationType = .SUM ∨ cfg.aggregationType = .AVG) ∧
              isNumericType valueCol.dataType = false then
            .error .incompatibleAggregation
          else if (cfg.aggregationType = .MIN ∨ cfg.aggregationType = .MAX) ∧
              isNumericType valueCol.dataType = false ∧
              isDateType valueCol.dataType = false then
            .error .incompatibleAggregation
          else
            let dateField := isDateType valueCol.dataType
            let st := ds.records.foldl
              (processRecord rowCol columnCol cfg dateField) initState
            .ok ⟨sortSmart st.rowSet, sortSmart st.columnSet,
                 buildGridData cfg.aggregationType st.cellDataMap⟩

/-! ### The totals computation of the `PivotTable` component -/

/-- One step of a totals loop over a defined cell (or row-total) value:
`COUNT`/`SUM`/`AVG` accumulate the sum and bump the counter, `MIN`/`MAX`
keep the running extremum (seeded by the first value). -/
def totalStep (agg : Agg) (state : JSNum × ℕ) (v : JSNum) : JSNum × ℕ :=
  match agg with
  | .COUNT => (jsAdd state.1 v, state.2 + 1)
  | .SUM => (jsAdd state.1 v, state.2 + 1)
  | .AVG => (jsAdd state.1 v, state.2 + 1)
  | .MIN => (if state.2 = 0 then v else jsMin2 state.1 v, state.2 + 1)
  | .MAX => (if state.2 = 0 then v else jsMax2 state.1 v, state.2 + 1)

/-- The common shape of the column-total and row-total loops: walk the
given cell keys, fold the defined `gridData` values with `totalStep`, then
divide for `AVG`; an axis with no defined values totals `0` for
`COUNT`/`SUM` and stays absent for the other aggregations. -/
def totalOverKeys (agg : Agg) (grid : List (String × JSNum)) (cellKeys : List String) :
    Option JSNum :=
  let s := cellKeys.foldl
    (fun st k =>
      match mapGet grid k with
      | none => st
      | some v => totalStep agg st v)
    (JSNum.val 0, 0)
  if s.2 > 0 then some (if agg = .AVG then jsDivNat s.1 s.2 else s.1)
  else if agg = .COUNT ∨ agg = .SUM then some (.val 0)
  else none

/-- The column total of `colKey` (the `columnKeys.forEach` loop). -/
def columnTotal (agg : Agg) (grid : List (String × JSNum)) (rowKeys : List String)
    (colKey : String) : Option JSNum :=
  totalOverKeys agg grid (rowKeys.map (fun rk => cellKey rk colKey))

/-- The row total of `rowKey` (the `rowKeys.forEach` loop). -/
def rowTotal (agg : Agg) (grid : List (String × JSNum)) (columnKeys : List String)
    (rowKey : String) : Option JSNum :=
  totalOverKeys agg grid (columnKeys.map (fun ck => cellKey rowKey ck))

/-- The grand total: fold the defined row totals with the same per-step
rules (the source loop is textually identical to `totalStep`), divide for
`AVG`, default to `0` for `COUNT`/`SUM` when no row total is defined. -/
def grandTotal (agg : Agg) (grid : List (String × JSNum))
    (rowKeys columnKeys : List String) : Option JSNum :=
  let s := rowKeys.foldl
    (fun st rk =>
      match rowTotal agg grid columnKeys rk with
      | none => st
      | some rt => totalStep agg st rt)
    (JSNum.val 0, 0)
  if s.2 > 0 then some (if agg = .AVG ∧ s.2 > 0 then jsDivNat s.1 s.2 else s.1)
  else if agg = .COUNT ∨ agg = .SUM then some (.val 0)
  else none

/-! ### The grouped view's expand/collapse state (`toggleGroup`) -/

/-- `toggleGroup(groupKey)`: delete the label from the collapsed-group set
if present, else add it. -/
def toggleGroup (collapsedGroups : Finset String) (groupKey : String) : Finset String :=
  if groupKey ∈ collapsedGroups then collapsedGroups.erase groupKey
  else insert groupKey collapsedGroups

/-! ### Derived views of the record scan, used to state its invariants -/

/-- Whether the scan registers a record: it contributes whenever its raw
value is non-null, and additionally under `COUNT` when it is null. -/
def registersRecord (cfg : IPivotConfig) (r : EntityRecord) : Bool :=
  (getValue r cfg.valueField).isSome || decide (cfg.aggregationType = .COUNT)

/-- The numeric value a record appends to its cell accumulator (`none` when
its raw value is null). -/
def recordNumeric (cfg : IPivotConfig) (dateField : Bool) (r : EntityRecord) : Option JSNum :=
  (getValue r cfg.valueField).map
    (fun v => if dateField then jsToDateMillis v else jsToNumber v)

/-- The cell key a record is routed to. -/
def recKeyOf (rowCol columnCol : Column) (cfg : IPivotConfig) (r : EntityRecord) : String :=
  cellKey (deriveKey rowCol cfg.groupByRow r) (deriveKey columnCol cfg.groupByColumn r)

/-- The records of `rs` registered at cell key `k`. -/
def hitList (rowCol columnCol : Column) (cfg : IPivotConfig) (rs : List EntityRecord)
    (k : String) : List EntityRecord :=
  rs.filter (fun r => registersRecord cfg r && decide (recKeyOf rowCol columnCol cfg r = k))

/-- The numeric contributions of a record list, in order. -/
def hitValues (cfg : IPivotConfig) (dateField : Bool) (rs : List EntityRecord) : List JSNum :=
  rs.filterMap (recordNumeric cfg dateField)

/-- The number of records of the dataset routed to cell key `k` (every
record, with or without a value). -/
def recordCountAt (ds : Dataset) (cfg : IPivotConfig) (k : String) : ℕ :=
  (((findColumn ds.columns cfg.groupByRow).bind (fun rowCol =>
    (findColumn ds.columns cfg.groupByColumn).map (fun columnCol =>
      (ds.records.filter
        (fun r => decide (recKeyOf rowCol columnCol cfg r = k))).length))).getD 0)

/-- The number of records of the dataset routed to cell key `k` whose raw
value is non-null. -/
def nonNullCountAt (ds : Dataset) (cfg : IPivotConfig) (k : String) : ℕ :=
  (((findColumn ds.columns cfg.groupByRow).bind (fun rowCol =>
    (findColumn ds.columns cfg.groupByColumn).map (fun columnCol =>
      (ds.records.filter (fun r =>
        (getValue r cfg.valueField).isSome &&
          decide (recKeyOf rowCol columnCol cfg r = k))).length))).getD 0)

/-! ### Spec-side comparison definitions -/

/-- Modelled from the spec: re-aggregating an axis "using the same
aggregation policy as step 5" applied to the pooled contributing numeric
values of that axis (the union of its cell accumulators). -/
def axisPolicyTotal (agg : Agg) (pooledValues : List JSNum) : Option JSNum :=
  aggregateCell agg ⟨pooledValues, pooledValues.length⟩

/-- Modelled from the spec: the arithmetic mean of all numeric contributing
values across the whole record set. -/
def specGrandAverage (ds : Dataset) (cfg : IPivotConfig) : Option ℚ :=
  match findColumn ds.columns cfg.valueField with
  | none => none
  | some valueCol =>
    let vals := ds.records.filterMap (fun r =>
      match recordNumeric cfg (isDateType valueCol.dataType) r with
      | some (.val q) => some q
      | _ => none)
    if vals.length = 0 then none else some (vals.sum / vals.length)

/-! ### Concrete datasets used by the claims -/

/-- Column descriptors with text-typed grouping fields and a decimal value
field. -/
def colsDec : List Column :=
  [⟨"row", "SingleLine.Text"⟩, ⟨"col", "SingleLine.Text"⟩, ⟨"val", "Decimal"⟩]

/-- Column descriptors whose value field is text-typed. -/
def colsTextVal : List Column :=
  [⟨"row", "SingleLine.Text"⟩, ⟨"col", "SingleLine.Text"⟩, ⟨"val", "SingleLine.Text"⟩]

/-- A record with the given row label, column label and raw value. -/
def mkRec (rowLabel colLabel : String) (v : Option JSVal) : EntityRecord :=
  ⟨[("row", some (.str rowLabel)), ("col", some (.str colLabel)), ("val", v)], []⟩

/-- The pivot configuration used by the concrete examples. -/
def cfgWith (agg : Agg) : IPivotConfig := ⟨"row", "col", "val", agg⟩

/-- Records `[{row:"A",col:"X",val:null},{row:"A",col:"X",val:5}]`. -/
def dsC1 : Dataset := ⟨colsDec, [mkRec "A" "X" none, mkRec "A" "X" (some (.num 5))]⟩

/-- The single record `[{row:"A",col:"X",val:null}]`. -/
def dsC2 : Dataset := ⟨colsDec, [mkRec "A" "X" none]⟩

/-- One record with a text-typed value field. -/
def dsC3 : Dataset := ⟨colsTextVal, [mkRec "A" "X" (some (.str "t"))]⟩

/-- Column "X" receives cells `(A,X) = {1}` and `(B,X) = {3,5}`. -/
def dsC4 : Dataset :=
  ⟨colsDec, [mkRec "A" "X" (some (.num 1)), mkRec "B" "X" (some (.num 3)),
             mkRec "B" "X" (some (.num 5))]⟩

/-- Row "A" holds the single value 1, row "B" the values 3 and 5 in two
different columns. -/
def dsC5 : Dataset :=
  ⟨colsDec, [mkRec "A" "X" (some (.num 1)), mkRec "B" "X" (some (.num 3)),
             mkRec "B" "Y" (some (.num 5))]⟩

/-- Declared columns but zero records. -/
def dsC7 : Dataset := ⟨colsDec, []⟩

/-! ### Association-list and set lemmas -/

theorem mapGet_nil {β : Type} (k : String) : mapGet ([] : List (String × β)) k = none := rfl

theorem mapGet_cons {β : Type} (k0 : String) (v0 : β) (rest : List (String × β)) (k : String) :
    mapGet ((k0, v0) :: rest) k = if k0 = k then some v0 else mapGet rest k := rfl

theorem mapSet_nil {β : Type} (k : String) (v : β) :
    mapSet ([] : List (String × β)) k v = [(k, v)] := rfl

theorem mapSet_cons {β : Type} (k0 : String) (v0 : β) (rest : List (String × β))
    (k : String) (v : β) :
    mapSet ((k0, v0) :: rest) k v =
      if k0 = k then (k0, v) :: rest else (k0, v0) :: mapSet rest k v := rfl

theorem mapKeys_nil {β : Type} : mapKeys ([] : List (String × β)) = [] := rfl

theorem mapKeys_cons {β : Type} (e : String × β) (m : List (String × β)) :
    mapKeys (e :: m) = e.1 :: mapKeys m := rfl

theorem mapGet_mapSet_self {β : Type} (m : List (String × β)) (k : String) (v : β) :
    mapGet (mapSet m k v) k = some v := by
  induction m with
  | nil => simp [mapGet, mapSet]
  | cons e rest ih =>
    obtain ⟨k0, v0⟩ := e
    by_cases h : k0 = k
    · simp [mapGet_cons, mapSet_cons, h]
    · simp [mapGet_cons, mapSet_cons, h, ih]

theorem mapGet_mapSet_ne {β : Type} (m : List (String × β)) (k k' : String) (v : β)
    (h : k' ≠ k) : mapGet (mapSet m k v) k' = mapGet m k' := by
  induction m with
  | nil => simp [mapGet_nil, mapSet_nil, mapGet_cons, Ne.symm h]
  | cons e rest ih =>
    obtain ⟨k0, v0⟩ := e
    by_cases h1 : k0 = k
    · subst h1
      simp [mapGet_cons, mapSet_cons, Ne.symm h]
    · simp [mapGet_cons, mapSet_cons, h1, ih]

theorem mapKeys_mapSet {β : Type} (m : List (String × β)) (k : String) (v : β) :
    mapKeys (mapSet m k v) =
      if k ∈ mapKeys m then mapKeys m else mapKeys m ++ [k] := by
  induction m with
  | nil => simp [mapKeys, mapSet]
  | cons e rest ih =>
    obtain ⟨k0, v0⟩ := e
    by_cases h : k0 = k
    · subst h
      simp [mapKeys_cons, mapSet_cons]
    · have hmem : k ∈ mapKeys ((k0, v0) :: rest) ↔ k ∈ mapKeys rest := by
        simp [mapKeys_cons, Ne.symm h]
      by_cases h2 : k ∈ mapKeys rest
      · rw [if_pos (hmem.mpr h2)]
        rw [if_pos h2] at ih
        simp [mapSet_cons, h, mapKeys_cons, ih]
      · rw [if_neg (fun hc => h2 (hmem.mp hc))]
        rw [if_neg h2] at ih
        simp [mapSet_cons, h, mapKeys_cons, ih]

theorem mapGet_eq_none_iff {β : Type} (m : List (String × β)) (k : String) :
    mapGet m k = none ↔ k ∉ mapKeys m := by
  induction m with
  | nil => simp [mapGet, mapKeys]
  | cons e rest ih =>
    obtain ⟨k0, v0⟩ := e
    by_cases h : k0 = k
    · simp [mapGet_cons, mapKeys_cons, h]
    · simp [mapGet_cons, mapKeys_cons, h, ih, Ne.symm h]

theorem mapGet_isSome_iff {β : Type} (m : List (String × β)) (k : String) :
    (mapGet m k).isSome ↔ k ∈ mapKeys m := by
  rcases h : mapGet m k with _ | v
  · simp [(mapGet_eq_none_iff m k).mp h]
  · have : k ∈ mapKeys m := by
      by_contra hk
      rw [(mapGet_eq_none_iff m k).mpr hk] at h
      cases h
    simp [this]

theorem mapSet_eq_append {β : Type} (m : List (String × β)) (k : String) (v : β)
    (h : k ∉ mapKeys m) : mapSet m k v = m ++ [(k, v)] := by
  induction m with
  | nil => simp [mapSet]
  | cons e rest ih =>
    obtain ⟨k0, v0⟩ := e
    simp [mapKeys_cons] at h
    push_neg at h
    simp [mapSet_cons, Ne.symm h.1, ih (by simpa [mapKeys] using h.2)]

theorem mapGet_append {β : Type} (m m2 : List (String × β)) (k : String) :
    mapGet (m ++ m2) k =
      match mapGet m k with
      | some v => some v
      | none => mapGet m2 k := by
  induction m with
  | nil => simp [mapGet]
  | cons e rest ih =>
    obtain ⟨k0, v0⟩ := e
    by_cases h : k0 = k
    · simp [mapGet_cons, h]
    · simp [mapGet_cons, h, ih]

theorem mem_addSet (l : List String) (x y : String) :
    x ∈ addSet l y ↔ x ∈ l ∨ x = y := by
  unfold addSet
  by_cases h : y ∈ l
  · simp only [if_pos h]
    constructor
    · exact fun hx => Or.inl hx
    · rintro (hx | rfl)
      · exact hx
      · exact h
  · simp [if_neg h]

theorem addSet_nodup (l : List String) (y : String) (h : l.Nodup) :
    (addSet l y).Nodup := by
  unfold addSet
  by_cases hy : y ∈ l
  · simpa [hy]
  · simp [hy, List.nodup_append, h]

theorem mem_sortSmart (l : List String) (x : String) : x ∈ sortSmart l ↔ x ∈ l :=
  List.mem_insertionSort smartLe

theorem sortSmart_nodup (l : List String) (h : l.Nodup) : (sortSmart l).Nodup :=
  ((List.perm_insertionSort smartLe l).nodup_iff).mpr h

/-! ### The smart comparator is antisymmetric, hence total -/

theorem natCmp_swap (a b : ℕ) : (natCmp a b).swap = natCmp b a := by
  unfold natCmp
  split_ifs <;> first | rfl | (exfalso; omega)

theorem qCompare_swap (a b : ℚ) : (qCompare a b).swap = qCompare b a := by
  unfold qCompare
  split_ifs <;> first | rfl | (exfalso; linarith)

theorem jsNumCompare_swap (x y : JSNum) : (jsNumCompare x y).swap = jsNumCompare y x := by
  cases x <;> cases y <;> first | rfl | exact qCompare_swap _ _

theorem tokCmp_swap (a b : NatToken) : (tokCmp a b).swap = tokCmp b a := by
  cases a <;> cases b <;> first | rfl | exact natCmp_swap _ _

theorem tokListCmp_swap (l1 l2 : List NatToken) :
    (tokListCmp l1 l2).swap = tokListCmp l2 l1 := by
  induction l1 generalizing l2 with
  | nil => cases l2 <;> simp [tokListCmp, Ordering.swap]
  | cons a as ih =>
    cases l2 with
    | nil => rfl
    | cons b bs =>
      cases h : tokCmp a b with
      | lt =>
        have hb : tokCmp b a = .gt := by rw [← tokCmp_swap a b, h]; rfl
        simp only [tokListCmp, h, hb]
        rfl
      | gt =>
        have hb : tokCmp b a = .lt := by rw [← tokCmp_swap a b, h]; rfl
        simp only [tokListCmp, h, hb]
        rfl
      | eq =>
        have hb : tokCmp b a = .eq := by rw [← tokCmp_swap a b, h]; rfl
        simp only [tokListCmp, h, hb]
        exact ih bs

theorem natCompare_swap (a b : String) : (natCompare a b).swap = natCompare b a :=
  tokListCmp_swap _ _

theorem smartSortCmp_swap (a b : String) :
    (smartSortCmp a b).swap = smartSortCmp b a := by
  unfold smartSortCmp
  cases h1 : parseJSNumber a <;> cases h2 : parseJSNumber b <;>
    first
      | exact natCompare_swap a b
      | exact jsNumCompare_swap _ _

set_option maxHeartbeats 2000000 in
/-- Claim C6: axis label sequences are sorted by the smart comparator —
labels that both parse fully as numbers compare numerically, all others by
natural-sort case-insensitive text with digit runs compared numerically;
`["Item2","Item10","Item1"]` sorts to `["Item1","Item2","Item10"]`,
`["10","2","1"]` sorts to `["1","2","10"]`, and the comparator is
antisymmetric under argument swap, so every two labels are comparable (the
ordering is total). -/
theorem claim_C6 :
    sortSmart ["Item2", "Item10", "Item1"] = ["Item1", "Item2", "Item10"] ∧
    sortSmart ["10", "2", "1"] = ["1", "2", "10"] ∧
    (∀ a b : String, smartSortCmp b a = (smartSortCmp a b).swap) ∧
    (∀ a b : String, smartLe a b ∨ smartLe b a) := by
  refine ⟨?_, ?_, fun a b => (smartSortCmp_swap a b).symm, fun a b => ?_⟩
  · simp [sortSmart, List.insertionSort, List.orderedInsert, smartLe, smartSortCmp,
      parseJSNumber, parseUnsigned, parseDecimalBody, splitFrac, parseExponentTail,
      isJSWhitespace, digitVal, digitsToNat, natCompare, tokenize, tokenizeAux,
      tokListCmp, tokCmp, natCmp, jsNumCompare, qCompare]
  · simp [sortSmart, List.insertionSort, List.orderedInsert, smartLe, smartSortCmp,
      parseJSNumber, parseUnsigned, parseDecimalBody, splitFrac, parseExponentTail,
      isJSWhitespace, digitVal, digitsToNat, natCompare, tokenize, tokenizeAux,
      tokListCmp, tokCmp, natCmp, jsNumCompare, qCompare]
    all_goals norm_num
  · by_cases h : smartSortCmp a b = .gt
    · right
      unfold smartLe
      rw [← smartSortCmp_swap a b, h]
      simp [Ordering.swap]
    · exact Or.inl h

/-- Claim C8: `toggleGroup` flips exactly the toggled label's membership in
the collapsed-group set, leaves every other label's membership unchanged,
and applying it twice restores the original set. -/
theorem claim_C8 (g : String) (S : Finset String) :
    (g ∈ toggleGroup S g ↔ g ∉ S) ∧
    (∀ x : String, x ≠ g → (x ∈ toggleGroup S g ↔ x ∈ S)) ∧
    toggleGroup (toggleGroup S g) g = S := by
  refine ⟨?_, fun x hx => ?_, ?_⟩
  · unfold toggleGroup
    by_cases h : g ∈ S
    · simp [h]
    · simp [h]
  · unfold toggleGroup
    by_cases h : g ∈ S
    · simp [h, Finset.mem_erase, hx]
    · simp [h, Finset.mem_insert, hx]
  · unfold toggleGroup
    by_cases h : g ∈ S
    · rw [if_pos h, if_neg (by simp), Finset.insert_erase h]
    · rw [if_neg h, if_pos (Finset.mem_insert_self g S), Finset.erase_insert h]

/-- Witness for C8 at a concrete label and set. -/
theorem claim_C8_witness :
    ("A" ∈ toggleGroup ({"A"} : Finset String) "G" ↔ "A" ∈ ({"A"} : Finset String)) ∧
    toggleGroup (toggleGroup ({"A"} : Finset String) "G") "G" = {"A"} :=
  ⟨(claim_C8 "G" {"A"}).2.1 "A" (by decide), (claim_C8 "G" {"A"}).2.2⟩

/-! ### Invariants of the record scan -/

theorem processRecord_null_skip (rowCol columnCol : Column) (cfg : IPivotConfig)
    (dF : Bool) (st : PivotState) (r : EntityRecord)
    (h1 : getValue r cfg.valueField = none) (h2 : cfg.aggregationType ≠ .COUNT) :
    processRecord rowCol columnCol cfg dF st r = st := by
  unfold processRecord
  rw [h1]
  simp [h2]

theorem processRecord_null_count (rowCol columnCol : Column) (cfg : IPivotConfig)
    (dF : Bool) (st : PivotState) (r : EntityRecord)
    (h1 : getValue r cfg.valueField = none) (h2 : cfg.aggregationType = .COUNT) :
    processRecord rowCol columnCol cfg dF st r =
      registerNullCount st (deriveKey rowCol cfg.groupByRow r)
        (deriveKey columnCol cfg.groupByColumn r) := by
  unfold processRecord
  rw [h1]
  simp [h2]

theorem processRecord_some (rowCol columnCol : Column) (cfg : IPivotConfig)
    (dF : Bool) (st : PivotState) (r : EntityRecord) (v : JSVal)
    (h1 : getValue r cfg.valueField = some v) :
    processRecord rowCol columnCol cfg dF st r =
      registerValue st (deriveKey rowCol cfg.groupByRow r)
        (deriveKey columnCol cfg.groupByColumn r)
        (if dF then jsToDateMillis v else jsToNumber v) := by
  unfold processRecord
  rw [h1]

theorem fold_rowSet_mem (rowCol columnCol : Column) (cfg : IPivotConfig) (dF : Bool)
    (rs : List EntityRecord) (st : PivotState) (x : String) :
    x ∈ (rs.foldl (processRecord rowCol columnCol cfg dF) st).rowSet ↔
      x ∈ st.rowSet ∨
        ∃ r ∈ rs, registersRecord cfg r ∧ deriveKey rowCol cfg.groupByRow r = x := by
  induction rs generalizing st with
  | nil => simp
  | cons r rest ih =>
    rcases hv : getValue r cfg.valueField with _ | v
    · by_cases hagg : cfg.aggregationType = .COUNT
      · rw [List.foldl_cons, processRecord_null_count rowCol columnCol cfg dF st r hv hagg,
          ih]
        have hreg : registersRecord cfg r = true := by
          simp [registersRecord, hagg]
        simp only [registerNullCount, mem_addSet]
        constructor
        · rintro ((hx | rfl) | ⟨r2, hr2, hc⟩)
          · exact Or.inl hx
          · exact Or.inr ⟨r, List.mem_cons_self r rest, hreg, rfl⟩
          · exact Or.inr ⟨r2, List.mem_cons_of_mem r hr2, hc⟩
        · rintro (hx | ⟨r2, hr2, hc⟩)
          · exact Or.inl (Or.inl hx)
          · rcases List.mem_cons.mp hr2 with rfl | hr2
            · exact Or.inl (Or.inr hc.2.symm)
            · exact Or.inr ⟨r2, hr2, hc⟩
      · rw [List.foldl_cons, processRecord_null_skip rowCol columnCol cfg dF st r hv hagg,
          ih]
        have hreg : registersRecord cfg r = false := by
          simp [registersRecord, hagg, hv]
        constructor
        · rintro (hx | ⟨r2, hr2, hc⟩)
          · exact Or.inl hx
          · exact Or.inr ⟨r2, List.mem_cons_of_mem r hr2, hc⟩
        · rintro (hx | ⟨r2, hr2, hc⟩)
          · exact Or.inl hx
          · rcases List.mem_cons.mp hr2 with rfl | hr2
            · rw [hreg] at hc
              cases hc.1
            · exact Or.inr ⟨r2, hr2, hc⟩
    · rw [List.foldl_cons, processRecord_some rowCol columnCol cfg dF st r v hv, ih]
      have hreg : registersRecord cfg r = true := by
        simp [registersRecord, hv]
      simp only [registerValue, mem_addSet]
      constructor
      · rintro ((hx | rfl) | ⟨r2, hr2, hc⟩)
        · exact Or.inl hx
        · exact Or.inr ⟨r, List.mem_cons_self r rest, hreg, rfl⟩
        · exact Or.inr ⟨r2, List.mem_cons_of_mem r hr2, hc⟩
      · rintro (hx | ⟨r2, hr2, hc⟩)
        · exact Or.inl (Or.inl hx)
        · rcases List.mem_cons.mp hr2 with rfl | hr2
          · exact Or.inl (Or.inr hc.2.symm)
          · exact Or.inr ⟨r2, hr2, hc⟩

theorem fold_columnSet_mem (rowCol columnCol : Column) (cfg : IPivotConfig) (dF : Bool)
    (rs : List EntityRecord) (st : PivotState) (x : String) :
    x ∈ (rs.foldl (processRecord rowCol columnCol cfg dF) st).columnSet ↔
      x ∈ st.columnSet ∨
        ∃ r ∈ rs, registersRecord cfg r ∧ deriveKey columnCol cfg.groupByColumn r = x := by
  induction rs generalizing st with
  | nil => simp
  | cons r rest ih =>
    rcases hv : getValue r cfg.valueField with _ | v
    · by_cases hagg : cfg.aggregationType = .COUNT
      · rw [List.foldl_cons, processRecord_null_count rowCol columnCol cfg dF st r hv hagg,
          ih]
        have hreg : registersRecord cfg r = true := by
          simp [registersRecord, hagg]
        simp only [registerNullCount, mem_addSet]
        constructor
        · rintro ((hx | rfl) | ⟨r2, hr2, hc⟩)
          · exact Or.inl hx
          · exact Or.inr ⟨r, List.mem_cons_self r rest, hreg, rfl⟩
          · exact Or.inr ⟨r2, List.mem_cons_of_mem r hr2, hc⟩
        · rintro (hx | ⟨r2, hr2, hc⟩)
          · exact Or.inl (Or.inl hx)
          · rcases List.mem_cons.mp hr2 with rfl | hr2
            · exact Or.inl (Or.inr hc.2.symm)
            · exact Or.inr ⟨r2, hr2, hc⟩
      · rw [List.foldl_cons, processRecord_null_skip rowCol columnCol cfg dF st r hv hagg,
          ih]
        have hreg : registersRecord cfg r = false := by
          simp [registersRecord, hagg, hv]
        constructor
        · rintro (hx | ⟨r2, hr2, hc⟩)
          · exact Or.inl hx
          · exact Or.inr ⟨r2, List.mem_cons_of_mem r hr2, hc⟩
        · rintro (hx | ⟨r2, hr2, hc⟩)
          · exact Or.inl hx
          · rcases List.mem_cons.mp hr2 with rfl | hr2
            · rw [hreg] at hc
              cases hc.1
            · exact Or.inr ⟨r2, hr2, hc⟩
    · rw [List.foldl_cons, processRecord_some rowCol columnCol cfg dF st r v hv, ih]
      have hreg : registersRecord cfg r = true := by
        simp [registersRecord, hv]
      simp only [registerValue, mem_addSet]
      constructor
      · rintro ((hx | rfl) | ⟨r2, hr2, hc⟩)
        · exact Or.inl hx
        · exact Or.inr ⟨r, List.mem_cons_self r rest, hreg, rfl⟩
        · exact Or.inr ⟨r2, List.mem_cons_of_mem r hr2, hc⟩
      · rintro (hx | ⟨r2, hr2, hc⟩)
        · exact Or.inl (Or.inl hx)
        · rcases List.mem_cons.mp hr2 with rfl | hr2
          · exact Or.inl (Or.inr hc.2.symm)
          · exact Or.inr ⟨r2, hr2, hc⟩

theorem fold_rowSet_nodup (rowCol columnCol : Column) (cfg : IPivotConfig) (dF : Bool)
    (rs : List EntityRecord) (st : PivotState) (h : st.rowSet.Nodup) :
    (rs.foldl (processRecord rowCol columnCol cfg dF) st).rowSet.Nodup := by
  induction rs generalizing st with
  | nil => exact h
  | cons r rest ih =>
    rw [List.foldl_cons]
    apply ih
    rcases hv : getValue r cfg.valueField with _ | v
    · by_cases hagg : cfg.aggregationType = .COUNT
      · rw [processRecord_null_count rowCol columnCol cfg dF st r hv hagg]
        exact addSet_nodup _ _ h
      · rw [processRecord_null_skip rowCol columnCol cfg dF st r hv hagg]
        exact h
    · rw [processRecord_some rowCol columnCol cfg dF st r v hv]
      exact addSet_nodup _ _ h

theorem fold_columnSet_nodup (rowCol columnCol : Column) (cfg : IPivotConfig) (dF : Bool)
    (rs : List EntityRecord) (st : PivotState) (h : st.columnSet.Nodup) :
    (rs.foldl (processRecord rowCol columnCol cfg dF) st).columnSet.Nodup := by
  induction rs generalizing st with
  | nil => exact h
  | cons r rest ih =>
    rw [List.foldl_cons]
    apply ih
    rcases hv : getValue r cfg.valueField with _ | v
    · by_cases hagg : cfg.aggregationType = .COUNT
      · rw [processRecord_null_count rowCol columnCol cfg dF st r hv hagg]
        exact addSet_nodup _ _ h
      · rw [processRecord_null_skip rowCol columnCol cfg dF st r hv hagg]
        exact h
    · rw [processRecord_some rowCol columnCol cfg dF st r v hv]
      exact addSet_nodup _ _ h

theorem registerNullCount_cellDataMap (st : PivotState) (rk ck : String) :
    (registerNullCount st rk ck).cellDataMap =
      mapSet st.cellDataMap (cellKey rk ck)
        ⟨((mapGet st.cellDataMap (cellKey rk ck)).getD ⟨[], 0⟩).values,
         ((mapGet st.cellDataMap (cellKey rk ck)).getD ⟨[], 0⟩).count + 1⟩ := rfl

theorem registerValue_cellDataMap (st : PivotState) (rk ck : String) (v : JSNum) :
    (registerValue st rk ck v).cellDataMap =
      mapSet st.cellDataMap (cellKey rk ck)
        ⟨((mapGet st.cellDataMap (cellKey rk ck)).getD ⟨[], 0⟩).values ++ [v],
         ((mapGet st.cellDataMap (cellKey rk ck)).getD ⟨[], 0⟩).count + 1⟩ := rfl

/-- The central invariant of the record scan: after folding a record list,
the accumulator found at cell key `k` extends the initial one by exactly
the numeric contributions and the number of the records registered at
`k`. -/
theorem fold_cellDataMap (rowCol columnCol : Column) (cfg : IPivotConfig) (dF : Bool)
    (rs : List EntityRecord) (st : PivotState) (k : String) :
    mapGet (rs.foldl (processRecord rowCol columnCol cfg dF) st).cellDataMap k =
      if hitList rowCol columnCol cfg rs k = [] then mapGet st.cellDataMap k
      else
        some ⟨((mapGet st.cellDataMap k).getD ⟨[], 0⟩).values
                ++ hitValues cfg dF (hitList rowCol columnCol cfg rs k),
              ((mapGet st.cellDataMap k).getD ⟨[], 0⟩).count
                + (hitList rowCol columnCol cfg rs k).length⟩ := by
  induction rs generalizing st with
  | nil => simp [hitList]
  | cons r rest ih =>
    rcases hv : getValue r cfg.valueField with _ | v
    · by_cases hagg : cfg.aggregationType = .COUNT
      · by_cases hk : recKeyOf rowCol columnCol cfg r = k
        · have hfil : hitList rowCol columnCol cfg (r :: rest) k
              = r :: hitList rowCol columnCol cfg rest k := by
            simp [hitList, List.filter_cons, registersRecord, hagg, hk]
          have hnum : recordNumeric cfg dF r = none := by
            simp [recordNumeric, hv]
          have hget : mapGet (registerNullCount st (deriveKey rowCol cfg.groupByRow r)
              (deriveKey columnCol cfg.groupByColumn r)).cellDataMap k
              = some ⟨((mapGet st.cellDataMap k).getD ⟨[], 0⟩).values,
                      ((mapGet st.cellDataMap k).getD ⟨[], 0⟩).count + 1⟩ := by
            rw [registerNullCount_cellDataMap]
            have hck : cellKey (deriveKey rowCol cfg.groupByRow r)
                (deriveKey columnCol cfg.groupByColumn r) = k := hk
            rw [hck, mapGet_mapSet_self]
          rw [List.foldl_cons, processRecord_null_count rowCol columnCol cfg dF st r hv hagg,
            ih, hget, hfil]
          by_cases hrest : hitList rowCol columnCol cfg rest k = []
          · simp [hrest, hitValues, hnum]
          · simp only [hrest, if_neg (List.cons_ne_nil r _), if_neg hrest,
              Option.getD_some]
            simp [hitValues, hnum, List.append_assoc]
            omega
        · have hfil : hitList rowCol columnCol cfg (r :: rest) k
              = hitList rowCol columnCol cfg rest k := by
            simp [hitList, List.filter_cons, hk]
          have hget : mapGet (registerNullCount st (deriveKey rowCol cfg.groupByRow r)
              (deriveKey columnCol cfg.groupByColumn r)).cellDataMap k
              = mapGet st.cellDataMap k := by
            rw [registerNullCount_cellDataMap]
            exact mapGet_mapSet_ne _ _ _ _ (fun hh => hk hh.symm)
          rw [List.foldl_cons, processRecord_null_count rowCol columnCol cfg dF st r hv hagg,
            ih, hget, hfil]
      · have hreg : registersRecord cfg r = false := by
          simp [registersRecord, hv, hagg]
        have hfil : hitList rowCol columnCol cfg (r :: rest) k
            = hitList rowCol columnCol cfg rest k := by
          simp [hitList, List.filter_cons, hreg]
        rw [List.foldl_cons, processRecord_null_skip rowCol columnCol cfg dF st r hv hagg,
          ih, hfil]
    · have hreg : registersRecord cfg r = true := by
        simp [registersRecord, hv]
      by_cases hk : recKeyOf rowCol columnCol cfg r = k
      · have hfil : hitList rowCol columnCol cfg (r :: rest) k
            = r :: hitList rowCol columnCol cfg rest k := by
          simp [hitList, List.filter_cons, hreg, hk]
        have hnum : recordNumeric cfg dF r
            = some (if dF then jsToDateMillis v else jsToNumber v) := by
          simp [recordNumeric, hv]
        have hget : mapGet (registerValue st (deriveKey rowCol cfg.groupByRow r)
            (deriveKey columnCol cfg.groupByColumn r)
            (if dF then jsToDateMillis v else jsToNumber v)).cellDataMap k
            = some ⟨((mapGet st.cellDataMap k).getD ⟨[], 0⟩).values
                      ++ [if dF then jsToDateMillis v else jsToNumber v],
                    ((mapGet st.cellDataMap k).getD ⟨[], 0⟩).count + 1⟩ := by
          rw [registerValue_cellDataMap]
          have hck : cellKey (deriveKey rowCol cfg.groupByRow r)
              (deriveKey columnCol cfg.groupByColumn r) = k := hk
          rw [hck, mapGet_mapSet_self]
        rw [List.foldl_cons, processRecord_some rowCol columnCol cfg dF st r v hv,
          ih, hget, hfil]
        by_cases hrest : hitList rowCol columnCol cfg rest k = []
        · simp [hrest, hitValues, hnum]
        · simp only [hrest, if_neg (List.cons_ne_nil r _), if_neg hrest,
            Option.getD_some]
          simp [hitValues, hnum, List.append_assoc]
          omega
      · have hfil : hitList rowCol columnCol cfg (r :: rest) k
            = hitList rowCol columnCol cfg rest k := by
          simp [hitList, List.filter_cons, hk]
        have hget : mapGet (registerValue st (deriveKey rowCol cfg.groupByRow r)
            (deriveKey columnCol cfg.groupByColumn r)
            (if dF then jsToDateMillis v else jsToNumber v)).cellDataMap k
            = mapGet st.cellDataMap k := by
          rw [registerValue_cellDataMap]
          exact mapGet_mapSet_ne _ _ _ _ (fun hh => hk hh.symm)
        rw [List.foldl_cons, processRecord_some rowCol columnCol cfg dF st r v hv,
          ih, hget, hfil]

theorem mapGet_buildGridData_loop (agg : Agg) (m : List (String × CellData))
    (g : List (String × JSNum)) (k : String) (h : (mapKeys g ++ mapKeys m).Nodup) :
    mapGet (m.foldl
      (fun g e =>
        match aggregateCell agg e.2 with
        | some v => mapSet g e.1 v
        | none => g)
      g) k =
      if k ∈ mapKeys m then (mapGet m k).bind (fun cd => aggregateCell agg cd)
      else mapGet g k := by
  induction m generalizing g with
  | nil => simp [mapKeys]
  | cons e rest ih =>
    obtain ⟨k0, cd0⟩ := e
    have hd : List.Disjoint (mapKeys g) (k0 :: mapKeys rest) := by
      have := h
      rw [mapKeys_cons] at this
      exact List.disjoint_of_nodup_append this
    have hk0g : k0 ∉ mapKeys g := fun hmem => hd hmem (List.mem_cons_self k0 _)
    have hk0rest : k0 ∉ mapKeys rest := by
      have hsub : (k0 :: mapKeys rest).Nodup := by
        have := h
        rw [mapKeys_cons] at this
        exact this.sublist (List.sublist_append_right _ _)
      exact (List.nodup_cons.mp hsub).1
    cases hagg : aggregateCell agg cd0 with
    | none =>
      rw [List.foldl_cons]
      simp only [hagg]
      have hnodup2 : (mapKeys g ++ mapKeys rest).Nodup := by
        have := h
        rw [mapKeys_cons] at this
        exact this.sublist
          (List.Sublist.append (List.Sublist.refl _) (List.sublist_cons_self _ _))
      rw [ih g hnodup2]
      by_cases hk : k = k0
      · subst hk
        simp [hk0rest, mapKeys_cons, mapGet_cons, hagg,
          (mapGet_eq_none_iff g k).mpr hk0g]
      · simp [mapKeys_cons, mapGet_cons, hk, Ne.symm hk]
    | some v =>
      rw [List.foldl_cons]
      simp only [hagg]
      rw [mapSet_eq_append g k0 v hk0g]
      have hnodup2 : (mapKeys (g ++ [(k0, v)]) ++ mapKeys rest).Nodup := by
        have := h
        rw [mapKeys_cons] at this
        simpa [mapKeys, List.append_assoc] using this
      rw [ih (g ++ [(k0, v)]) hnodup2]
      by_cases hk : k = k0
      · subst hk
        have hgk : mapGet (g ++ [(k, v)]) k = some v := by
          rw [mapGet_append]
          simp [(mapGet_eq_none_iff g k).mpr hk0g, mapGet_cons]
        simp [hk0rest, mapKeys_cons, mapGet_cons, hagg, hgk]
      · have hgk : mapGet (g ++ [(k0, v)]) k = mapGet g k := by
          rw [mapGet_append]
          cases hg0 : mapGet g k <;>
            simp [hg0, mapGet_cons, mapGet_nil, Ne.symm hk]
        simp [mapKeys_cons, mapGet_cons, hk, hgk, Ne.symm hk]

/-- `gridData` holds exactly the defined per-cell aggregates of the
accumulator map. -/
theorem mapGet_buildGridData (agg : Agg) (m : List (String × CellData)) (k : String)
    (h : (mapKeys m).Nodup) :
    mapGet (buildGridData agg m) k =
      (mapGet m k).bind (fun cd => aggregateCell agg cd) := by
  have hloop := mapGet_buildGridData_loop agg m [] k (by simpa [mapKeys] using h)
  rw [buildGridData, hloop]
  by_cases hk : k ∈ mapKeys m
  · simp [hk]
  · simp [hk, mapGet_nil, (mapGet_eq_none_iff m k).mpr hk]

/-- Inversion of a successful transform: either the record set was empty
and the result is the empty pivot, or the three configured columns
resolved and the result is the sorted axis sets and aggregated grid of the
record scan. -/
theorem transform_ok_inv (ds : Dataset) (cfg : IPivotConfig) (p : IPivotData)
    (h : transformDatasetToPivot ds cfg = .ok p) :
    (ds.records = [] ∧ p = ⟨[], [], []⟩) ∨
      ∃ rowCol columnCol valueCol,
        findColumn ds.columns cfg.groupByRow = some rowCol ∧
        findColumn ds.columns cfg.groupByColumn = some columnCol ∧
        findColumn ds.columns cfg.valueField = some valueCol ∧
        p = ⟨sortSmart (ds.records.foldl
               (processRecord rowCol columnCol cfg (isDateType valueCol.dataType))
               initState).rowSet,
             sortSmart (ds.records.foldl
               (processRecord rowCol columnCol cfg (isDateType valueCol.dataType))
               initState).columnSet,
             buildGridData cfg.aggregationType
               (ds.records.foldl
                 (processRecord rowCol columnCol cfg (isDateType valueCol.dataType))
                 initState).cellDataMap⟩ := by
  unfold transformDatasetToPivot at h
  split at h
  · cases h
  split at h
  next hrec =>
    injection h with h2
    exact Or.inl ⟨List.isEmpty_iff.mp hrec, h2.symm⟩
  next hrec =>
    split at h
    · cases h
    next rowCol hfr =>
      split at h
      · cases h
      next columnCol hfc =>
        split at h
        · cases h
        next valueCol hfv =>
          split at h
          · cases h
          next h1 =>
            split at h
            · cases h
            next h2 =>
              split at h
              · cases h
              next h3 =>
                split at h
                · cases h
                next h4 =>
                  dsimp only at h
                  injection h with h5
                  exact Or.inr ⟨rowCol, columnCol, valueCol, hfr, hfc, hfv, h5.symm⟩

theorem fold_keys_nodup (rowCol columnCol : Column) (cfg : IPivotConfig) (dF : Bool)
    (rs : List EntityRecord) (st : PivotState) (h : (mapKeys st.cellDataMap).Nodup) :
    (mapKeys (rs.foldl (processRecord rowCol columnCol cfg dF) st).cellDataMap).Nodup := by
  induction rs generalizing st with
  | nil => exact h
  | cons r rest ih =>
    rw [List.foldl_cons]
    apply ih
    rcases hv : getValue r cfg.valueField with _ | v
    · by_cases hagg : cfg.aggregationType = .COUNT
      · rw [processRecord_null_count rowCol columnCol cfg dF st r hv hagg]
        show (mapKeys (mapSet st.cellDataMap _ _)).Nodup
        rw [mapKeys_mapSet]
        split_ifs with hk
        · exact h
        · simp [List.nodup_append, h, hk]
      · rw [processRecord_null_skip rowCol columnCol cfg dF st r hv hagg]
        exact h
    · rw [processRecord_some rowCol columnCol cfg dF st r v hv]
      show (mapKeys (mapSet st.cellDataMap _ _)).Nodup
      rw [mapKeys_mapSet]
      split_ifs with hk
      · exact h
      · simp [List.nodup_append, h, hk]

/-- Claim C10: for every dataset and configuration accepted by the
transform, the returned `rowKeys` and `columnKeys` sequences contain no
duplicate labels. -/
theorem claim_C10 (ds : Dataset) (cfg : IPivotConfig) (p : IPivotData)
    (h : transformDatasetToPivot ds cfg = .ok p) :
    p.rowKeys.Nodup ∧ p.columnKeys.Nodup := by
  rcases transform_ok_inv ds cfg p h with ⟨_, rfl⟩ | ⟨rowCol, columnCol, valueCol, _, _, _, rfl⟩
  · exact ⟨List.nodup_nil, List.nodup_nil⟩
  · constructor
    · exact sortSmart_nodup _
        (fold_rowSet_nodup rowCol columnCol cfg _ ds.records initState List.nodup_nil)
    · exact sortSmart_nodup _
        (fold_columnSet_nodup rowCol columnCol cfg _ ds.records initState List.nodup_nil)

/-- Witness for C10 at a concrete dataset. -/
theorem claim_C10_witness :
    (IPivotData.mk ["A"] ["X"] [("A_|_X", .val 5)]).rowKeys.Nodup ∧
    (IPivotData.mk ["A"] ["X"] [("A_|_X", .val 5)]).columnKeys.Nodup :=
  claim_C10 dsC1 (cfgWith .SUM) ⟨["A"], ["X"], [("A_|_X", .val 5)]⟩
    (by simp [transformDatasetToPivot, dsC1, dsC2, dsC3, dsC4, dsC5, dsC7, colsDec, colsTextVal,
      mkRec, cfgWith, findColumn, isLookupType, lookupTypes, isNumericType, isDateType,
      optionSetTypes, processRecord, deriveKey, getValue, getFormattedValue, mapGet, mapSet,
      addSet, cellKey, registerValue, registerNullCount, jsToNumber, jsToDateMillis,
      initState, buildGridData, aggregateCell, jsSum, jsAdd, jsDivNat, jsMinList, jsMaxList,
      jsMin2, jsMax2, sortSmart, smartLe, smartSortCmp, parseJSNumber, parseUnsigned,
      parseDecimalBody, splitFrac, parseExponentTail, parseRadix, isJSWhitespace, digitVal,
      digitsToNat, natCompare, tokenize, tokenizeAux, tokListCmp, tokCmp, natCmp,
      jsNumCompare, qCompare, jsValToString, List.insertionSort, List.orderedInsert,
      List.find?, List.foldl])

/-- Claim C9: every key of the returned sparse cell mapping was formed as
`rowKey + "_|_" + columnKey` from some processed record, and those two
labels are members of the returned axis sequences. -/
theorem claim_C9 (ds : Dataset) (cfg : IPivotConfig) (p : IPivotData)
    (h : transformDatasetToPivot ds cfg = .ok p) :
    ∀ k ∈ mapKeys p.gridData,
      ∃ rowCol columnCol rk ck,
        findColumn ds.columns cfg.groupByRow = some rowCol ∧
        findColumn ds.columns cfg.groupByColumn = some columnCol ∧
        k = cellKey rk ck ∧ rk ∈ p.rowKeys ∧ ck ∈ p.columnKeys ∧
        ∃ r ∈ ds.records,
          rk = deriveKey rowCol cfg.groupByRow r ∧
          ck = deriveKey columnCol cfg.groupByColumn r := by
  intro k hk
  rcases transform_ok_inv ds cfg p h with ⟨_, rfl⟩ |
    ⟨rowCol, columnCol, valueCol, hfr, hfc, hfv, rfl⟩
  · simp [mapKeys] at hk
  · have hnodup : (mapKeys (ds.records.foldl
        (processRecord rowCol columnCol cfg (isDateType valueCol.dataType))
        initState).cellDataMap).Nodup :=
      fold_keys_nodup rowCol columnCol cfg _ ds.records initState List.nodup_nil
    have hsome := (mapGet_isSome_iff _ k).mpr hk
    rw [mapGet_buildGridData _ _ _ hnodup] at hsome
    have hcm : (mapGet (ds.records.foldl
        (processRecord rowCol columnCol cfg (isDateType valueCol.dataType))
        initState).cellDataMap k).isSome := by
      rcases hmg : mapGet (ds.records.foldl
          (processRecord rowCol columnCol cfg (isDateType valueCol.dataType))
          initState).cellDataMap k with _ | cd
      · rw [hmg] at hsome
        simp at hsome
      · simp
    rw [fold_cellDataMap] at hcm
    by_cases hhit : hitList rowCol columnCol cfg ds.records k = []
    · rw [if_pos hhit] at hcm
      simp [initState, mapGet_nil] at hcm
    · obtain ⟨r, hr⟩ := List.exists_mem_of_ne_nil _ hhit
      have hr2 := List.mem_filter.mp hr
      have hprops := hr2.2
      rw [Bool.and_eq_true] at hprops
      have hkey : recKeyOf rowCol columnCol cfg r = k := of_decide_eq_true hprops.2
      have hregr : registersRecord cfg r = true := hprops.1
      refine ⟨rowCol, columnCol, deriveKey rowCol cfg.groupByRow r,
        deriveKey columnCol cfg.groupByColumn r, hfr, hfc, hkey.symm, ?_, ?_,
        r, hr2.1, rfl, rfl⟩
      · rw [mem_sortSmart, fold_rowSet_mem]
        exact Or.inr ⟨r, hr2.1, hregr, rfl⟩
      · rw [mem_sortSmart, fold_columnSet_mem]
        exact Or.inr ⟨r, hr2.1, hregr, rfl⟩

/-- Witness for C9 at a concrete dataset. -/
theorem claim_C9_witness :
    ∃ rowCol columnCol rk ck,
      findColumn dsC1.columns (cfgWith .SUM).groupByRow = some rowCol ∧
      findColumn dsC1.columns (cfgWith .SUM).groupByColumn = some columnCol ∧
      "A_|_X" = cellKey rk ck ∧
      rk ∈ (IPivotData.mk ["A"] ["X"] [("A_|_X", .val 5)]).rowKeys ∧
      ck ∈ (IPivotData.mk ["A"] ["X"] [("A_|_X", .val 5)]).columnKeys ∧
      ∃ r ∈ dsC1.records,
        rk = deriveKey rowCol (cfgWith .SUM).groupByRow r ∧
        ck = deriveKey columnCol (cfgWith .SUM).groupByColumn r :=
  claim_C9 dsC1 (cfgWith .SUM) ⟨["A"], ["X"], [("A_|_X", .val 5)]⟩
    (by simp [transformDatasetToPivot, dsC1, dsC2, dsC3, dsC4, dsC5, dsC7, colsDec, colsTextVal,
      mkRec, cfgWith, findColumn, isLookupType, lookupTypes, isNumericType, isDateType,
      optionSetTypes, processRecord, deriveKey, getValue, getFormattedValue, mapGet, mapSet,
      addSet, cellKey, registerValue, registerNullCount, jsToNumber, jsToDateMillis,
      initState, buildGridData, aggregateCell, jsSum, jsAdd, jsDivNat, jsMinList, jsMaxList,
      jsMin2, jsMax2, sortSmart, smartLe, smartSortCmp, parseJSNumber, parseUnsigned,
      parseDecimalBody, splitFrac, parseExponentTail, parseRadix, isJSWhitespace, digitVal,
      digitsToNat, natCompare, tokenize, tokenizeAux, tokListCmp, tokCmp, natCmp,
      jsNumCompare, qCompare, jsValToString, List.insertionSort, List.orderedInsert,
      List.find?, List.foldl])
    "A_|_X" (by simp [mapKeys])

/-- Claim C1: with records `[(A,X,null),(A,X,5)]` aggregation `SUM` yields
cell `(A,X) = 5` and `COUNT` yields cell `(A,X) = 2`; in general a record
with a null value under `COUNT` is still registered — its row and column
keys enter the axis sets and its cell count is incremented with no numeric
value appended. -/
theorem claim_C1 :
    transformDatasetToPivot dsC1 (cfgWith .SUM)
      = .ok ⟨["A"], ["X"], [("A_|_X", .val 5)]⟩ ∧
    transformDatasetToPivot dsC1 (cfgWith .COUNT)
      = .ok ⟨["A"], ["X"], [("A_|_X", .val 2)]⟩ ∧
    (∀ (rowCol columnCol : Column) (cfg : IPivotConfig) (dF : Bool) (st : PivotState)
        (r : EntityRecord),
      getValue r cfg.valueField = none → cfg.aggregationType = .COUNT →
        deriveKey rowCol cfg.groupByRow r
            ∈ (processRecord rowCol columnCol cfg dF st r).rowSet ∧
        deriveKey columnCol cfg.groupByColumn r
            ∈ (processRecord rowCol columnCol cfg dF st r).columnSet ∧
        mapGet (processRecord rowCol columnCol cfg dF st r).cellDataMap
            (recKeyOf rowCol columnCol cfg r)
          = some ⟨((mapGet st.cellDataMap (recKeyOf rowCol columnCol cfg r)).getD
                    ⟨[], 0⟩).values,
                  ((mapGet st.cellDataMap (recKeyOf rowCol columnCol cfg r)).getD
                    ⟨[], 0⟩).count + 1⟩) := by
  refine ⟨?_, ?_, ?_⟩
  · simp [transformDatasetToPivot, dsC1, dsC2, dsC3, dsC4, dsC5, dsC7, colsDec, colsTextVal,
      mkRec, cfgWith, findColumn, isLookupType, lookupTypes, isNumericType, isDateType,
      optionSetTypes, processRecord, deriveKey, getValue, getFormattedValue, mapGet, mapSet,
      addSet, cellKey, registerValue, registerNullCount, jsToNumber, jsToDateMillis,
      initState, buildGridData, aggregateCell, jsSum, jsAdd, jsDivNat, jsMinList, jsMaxList,
      jsMin2, jsMax2, sortSmart, smartLe, smartSortCmp, parseJSNumber, parseUnsigned,
      parseDecimalBody, splitFrac, parseExponentTail, parseRadix, isJSWhitespace, digitVal,
      digitsToNat, natCompare, tokenize, tokenizeAux, tokListCmp, tokCmp, natCmp,
      jsNumCompare, qCompare, jsValToString, List.insertionSort, List.orderedInsert,
      List.find?, List.foldl]
  · simp [transformDatasetToPivot, dsC1, dsC2, dsC3, dsC4, dsC5, dsC7, colsDec, colsTextVal,
      mkRec, cfgWith, findColumn, isLookupType, lookupTypes, isNumericType, isDateType,
      optionSetTypes, processRecord, deriveKey, getValue, getFormattedValue, mapGet, mapSet,
      addSet, cellKey, registerValue, registerNullCount, jsToNumber, jsToDateMillis,
      initState, buildGridData, aggregateCell, jsSum, jsAdd, jsDivNat, jsMinList, jsMaxList,
      jsMin2, jsMax2, sortSmart, smartLe, smartSortCmp, parseJSNumber, parseUnsigned,
      parseDecimalBody, splitFrac, parseExponentTail, parseRadix, isJSWhitespace, digitVal,
      digitsToNat, natCompare, tokenize, tokenizeAux, tokListCmp, tokCmp, natCmp,
      jsNumCompare, qCompare, jsValToString, List.insertionSort, List.orderedInsert,
      List.find?, List.foldl]
  · intro rowCol columnCol cfg dF st r h1 h2
    rw [processRecord_null_count rowCol columnCol cfg dF st r h1 h2]
    refine ⟨?_, ?_, ?_⟩
    · show _ ∈ addSet st.rowSet _
      rw [mem_addSet]
      exact Or.inr rfl
    · show _ ∈ addSet st.columnSet _
      rw [mem_addSet]
      exact Or.inr rfl
    · rw [registerNullCount_cellDataMap]
      exact mapGet_mapSet_self _ _ _

/-- Witness for the general part of C1 at a concrete record and state. -/
theorem claim_C1_witness :
    deriveKey ⟨"row", "SingleLine.Text"⟩ (cfgWith .COUNT).groupByRow (mkRec "A" "X" none)
        ∈ (processRecord ⟨"row", "SingleLine.Text"⟩ ⟨"col", "SingleLine.Text"⟩
            (cfgWith .COUNT) false initState (mkRec "A" "X" none)).rowSet ∧
    deriveKey ⟨"col", "SingleLine.Text"⟩ (cfgWith .COUNT).groupByColumn (mkRec "A" "X" none)
        ∈ (processRecord ⟨"row", "SingleLine.Text"⟩ ⟨"col", "SingleLine.Text"⟩
            (cfgWith .COUNT) false initState (mkRec "A" "X" none)).columnSet ∧
    mapGet (processRecord ⟨"row", "SingleLine.Text"⟩ ⟨"col", "SingleLine.Text"⟩
        (cfgWith .COUNT) false initState (mkRec "A" "X" none)).cellDataMap
        (recKeyOf ⟨"row", "SingleLine.Text"⟩ ⟨"col", "SingleLine.Text"⟩
          (cfgWith .COUNT) (mkRec "A" "X" none))
      = some ⟨((mapGet initState.cellDataMap
                  (recKeyOf ⟨"row", "SingleLine.Text"⟩ ⟨"col", "SingleLine.Text"⟩
                    (cfgWith .COUNT) (mkRec "A" "X" none))).getD ⟨[], 0⟩).values,
              ((mapGet initState.cellDataMap
                  (recKeyOf ⟨"row", "SingleLine.Text"⟩ ⟨"col", "SingleLine.Text"⟩
                    (cfgWith .COUNT) (mkRec "A" "X" none))).getD ⟨[], 0⟩).count + 1⟩ :=
  claim_C1.2.2 ⟨"row", "SingleLine.Text"⟩ ⟨"col", "SingleLine.Text"⟩ (cfgWith .COUNT)
    false initState (mkRec "A" "X" none) rfl rfl

/-- Claim C7: the transform fails with `DatasetNotConfigured` exactly when
the dataset declares no columns, and a dataset with declared columns but
zero records returns the empty pivot result instead of failing. -/
theorem claim_C7 (ds : Dataset) (cfg : IPivotConfig) :
    (transformDatasetToPivot ds cfg = .error .datasetNotConfigured ↔ ds.columns = []) ∧
    (ds.columns ≠ [] → ds.records = [] →
      transformDatasetToPivot ds cfg = .ok ⟨[], [], []⟩) := by
  constructor
  · constructor
    · intro h
      by_contra hc
      unfold transformDatasetToPivot at h
      split at h
      next hcols => exact hc (List.isEmpty_iff.mp hcols)
      next hcols =>
        split at h
        · simp at h
        split at h
        · simp at h
        split at h
        · simp at h
        split at h
        · simp at h
        split at h
        · simp at h
        split at h
        · simp at h
        split at h
        · simp at h
        split at h
        · simp at h
        dsimp only at h
        simp at h
    · intro hcols
      unfold transformDatasetToPivot
      rw [if_pos (by simp [hcols])]
  · intro hcols hrecs
    unfold transformDatasetToPivot
    rw [if_neg (by simp [List.isEmpty_iff, hcols]), if_pos (by simp [hrecs])]

/-- Witness for C7: declared columns with zero records give the empty
pivot. -/
theorem claim_C7_witness :
    transformDatasetToPivot dsC7 (cfgWith .SUM) = .ok ⟨[], [], []⟩ :=
  (claim_C7 dsC7 (cfgWith .SUM)).2 (by simp [dsC7, colsDec]) rfl

/-- Claim C2: a cell whose accumulator holds zero numeric values is absent
from the result under the non-`COUNT` aggregations (in particular
`[(A,X,null)]` with `SUM` yields no entry for `(A,X)` at all), while under
`COUNT` every populated cell is present with the number of registered
records (so the same record yields cell `(A,X) = 1`). -/
theorem claim_C2 :
    transformDatasetToPivot dsC2 (cfgWith .SUM) = .ok ⟨[], [], []⟩ ∧
    transformDatasetToPivot dsC2 (cfgWith .COUNT)
      = .ok ⟨["A"], ["X"], [("A_|_X", .val 1)]⟩ ∧
    (∀ ds cfg p, transformDatasetToPivot ds cfg = .ok p →
      (cfg.aggregationType ≠ .COUNT →
        ∀ k, nonNullCountAt ds cfg k = 0 → mapGet p.gridData k = none) ∧
      (cfg.aggregationType = .COUNT →
        ∀ k, mapGet p.gridData k =
          if recordCountAt ds cfg k = 0 then none
          else some (.val (recordCountAt ds cfg k)))) := by
  refine ⟨?_, ?_, ?_⟩
  · simp [transformDatasetToPivot, dsC1, dsC2, dsC3, dsC4, dsC5, dsC7, colsDec, colsTextVal,
      mkRec, cfgWith, findColumn, isLookupType, lookupTypes, isNumericType, isDateType,
      optionSetTypes, processRecord, deriveKey, getValue, getFormattedValue, mapGet, mapSet,
      addSet, cellKey, registerValue, registerNullCount, jsToNumber, jsToDateMillis,
      initState, buildGridData, aggregateCell, jsSum, jsAdd, jsDivNat, jsMinList, jsMaxList,
      jsMin2, jsMax2, sortSmart, smartLe, smartSortCmp, parseJSNumber, parseUnsigned,
      parseDecimalBody, splitFrac, parseExponentTail, parseRadix, isJSWhitespace, digitVal,
      digitsToNat, natCompare, tokenize, tokenizeAux, tokListCmp, tokCmp, natCmp,
      jsNumCompare, qCompare, jsValToString, List.insertionSort, List.orderedInsert,
      List.find?, List.foldl]
  · simp [transformDatasetToPivot, dsC1, dsC2, dsC3, dsC4, dsC5, dsC7, colsDec, colsTextVal,
      mkRec, cfgWith, findColumn, isLookupType, lookupTypes, isNumericType, isDateType,
      optionSetTypes, processRecord, deriveKey, getValue, getFormattedValue, mapGet, mapSet,
      addSet, cellKey, registerValue, registerNullCount, jsToNumber, jsToDateMillis,
      initState, buildGridData, aggregateCell, jsSum, jsAdd, jsDivNat, jsMinList, jsMaxList,
      jsMin2, jsMax2, sortSmart, smartLe, smartSortCmp, parseJSNumber, parseUnsigned,
      parseDecimalBody, splitFrac, parseExponentTail, parseRadix, isJSWhitespace, digitVal,
      digitsToNat, natCompare, tokenize, tokenizeAux, tokListCmp, tokCmp, natCmp,
      jsNumCompare, qCompare, jsValToString, List.insertionSort, List.orderedInsert,
      List.find?, List.foldl]
  · intro ds cfg p h
    rcases transform_ok_inv ds cfg p h with ⟨hrec, rfl⟩ |
      ⟨rowCol, columnCol, valueCol, hfr, hfc, hfv, rfl⟩
    · constructor
      · intro _ k _
        simp [mapGet_nil]
      · intro hagg k
        have hrc : recordCountAt ds cfg k = 0 := by
          unfold recordCountAt
          rcases findColumn ds.columns cfg.groupByRow with _ | rc
          · rfl
          rcases findColumn ds.columns cfg.groupByColumn with _ | cc
          · rfl
          simp [hrec]
        rw [hrc]
        simp [mapGet_nil]
    · have hnodup : (mapKeys (ds.records.foldl
          (processRecord rowCol columnCol cfg (isDateType valueCol.dataType))
          initState).cellDataMap).Nodup :=
        fold_keys_nodup rowCol columnCol cfg _ ds.records initState List.nodup_nil
      constructor
      · intro hagg k hcnt
        unfold nonNullCountAt at hcnt
        rw [hfr, hfc, Option.some_bind, Option.map_some', Option.getD_some] at hcnt
        have hfl := List.length_eq_zero.mp hcnt
        have hhit : hitList rowCol columnCol cfg ds.records k = [] := by
          unfold hitList
          rw [List.filter_congr (fun r _ => ?_)]
          · exact hfl
          · simp [registersRecord, hagg]
        rw [mapGet_buildGridData _ _ _ hnodup, fold_cellDataMap, if_pos hhit]
        simp [initState, mapGet_nil]
      · intro hagg k
        unfold recordCountAt
        rw [hfr, hfc, Option.some_bind, Option.map_some', Option.getD_some]
        have hhit : hitList rowCol columnCol cfg ds.records k
            = ds.records.filter
                (fun r => decide (recKeyOf rowCol columnCol cfg r = k)) := by
          unfold hitList
          exact List.filter_congr (fun r _ => by simp [registersRecord, hagg])
        rw [mapGet_buildGridData _ _ _ hnodup, fold_cellDataMap, hhit]
        by_cases hfl : ds.records.filter
            (fun r => decide (recKeyOf rowCol columnCol cfg r = k)) = []
        · rw [if_pos hfl, if_pos (by rw [hfl]; rfl)]
          simp [initState, mapGet_nil]
        · rw [if_neg hfl, if_neg (fun hc => hfl (List.length_eq_zero.mp hc))]
          simp [initState, mapGet_nil, aggregateCell, hagg]

/-- Witness for the general part of C2: the `COUNT` characterization at a
concrete dataset and cell key. -/
theorem claim_C2_witness :
    mapGet (IPivotData.mk ["A"] ["X"] [("A_|_X", .val 1)]).gridData "A_|_X" =
      if recordCountAt dsC2 (cfgWith .COUNT) "A_|_X" = 0 then none
      else some (.val (recordCountAt dsC2 (cfgWith .COUNT) "A_|_X")) :=
  (claim_C2.2.2 dsC2 (cfgWith .COUNT) ⟨["A"], ["X"], [("A_|_X", .val 1)]⟩
    (by simp [transformDatasetToPivot, dsC1, dsC2, dsC3, dsC4, dsC5, dsC7, colsDec, colsTextVal,
      mkRec, cfgWith, findColumn, isLookupType, lookupTypes, isNumericType, isDateType,
      optionSetTypes, processRecord, deriveKey, getValue, getFormattedValue, mapGet, mapSet,
      addSet, cellKey, registerValue, registerNullCount, jsToNumber, jsToDateMillis,
      initState, buildGridData, aggregateCell, jsSum, jsAdd, jsDivNat, jsMinList, jsMaxList,
      jsMin2, jsMax2, sortSmart, smartLe, smartSortCmp, parseJSNumber, parseUnsigned,
      parseDecimalBody, splitFrac, parseExponentTail, parseRadix, isJSWhitespace, digitVal,
      digitsToNat, natCompare, tokenize, tokenizeAux, tokListCmp, tokCmp, natCmp,
      jsNumCompare, qCompare, jsValToString, List.insertionSort, List.orderedInsert,
      List.find?, List.foldl])).2
    rfl "A_|_X"

/-- Claim C3: given resolvable, non-lookup grouping fields and a nonempty
record set, the transform fails with `IncompatibleAggregation` exactly when
the aggregation is `SUM`/`AVG` over a non-numeric value field or
`MIN`/`MAX` over a field that is neither numeric nor temporal; `COUNT` is
never rejected on grounds of the value field's type.  The criterion depends
only on the declared column types, never on the records. -/
theorem claim_C3 (ds : Dataset) (cfg : IPivotConfig) (rowCol columnCol valueCol : Column)
    (hrec : ds.records ≠ [])
    (hfr : findColumn ds.columns cfg.groupByRow = some rowCol)
    (hfc : findColumn ds.columns cfg.groupByColumn = some columnCol)
    (hfv : findColumn ds.columns cfg.valueField = some valueCol)
    (hl1 : isLookupType rowCol.dataType = false)
    (hl2 : isLookupType columnCol.dataType = false) :
    (transformDatasetToPivot ds cfg = .error .incompatibleAggregation ↔
      ((cfg.aggregationType = .SUM ∨ cfg.aggregationType = .AVG) ∧
        isNumericType valueCol.dataType = false) ∨
      ((cfg.aggregationType = .MIN ∨ cfg.aggregationType = .MAX) ∧
        isNumericType valueCol.dataType = false ∧
        isDateType valueCol.dataType = false)) ∧
    (cfg.aggregationType = .COUNT →
      transformDatasetToPivot ds cfg ≠ .error .incompatibleAggregation) := by
  have hcols : ds.columns ≠ [] := by
    intro hc
    rw [hc] at hfr
    cases hfr
  have hiff : transformDatasetToPivot ds cfg = .error .incompatibleAggregation ↔
      ((cfg.aggregationType = .SUM ∨ cfg.aggregationType = .AVG) ∧
        isNumericType valueCol.dataType = false) ∨
      ((cfg.aggregationType = .MIN ∨ cfg.aggregationType = .MAX) ∧
        isNumericType valueCol.dataType = false ∧
        isDateType valueCol.dataType = false) := by
    unfold transformDatasetToPivot
    rw [if_neg (by simp [List.isEmpty_iff, hcols]),
      if_neg (by simp [List.isEmpty_iff, hrec])]
    simp only [hfr, hfc, hfv]
    rw [if_neg (by simp [hl1]), if_neg (by simp [hl2])]
    by_cases hA : (cfg.aggregationType = .SUM ∨ cfg.aggregationType = .AVG) ∧
        isNumericType valueCol.dataType = false
    · rw [if_pos hA]
      simp [hA]
    · rw [if_neg hA]
      by_cases hB : (cfg.aggregationType = .MIN ∨ cfg.aggregationType = .MAX) ∧
          isNumericType valueCol.dataType = false ∧ isDateType valueCol.dataType = false
      · rw [if_pos hB]
        simp [hB]
      · rw [if_neg hB]
        simp [hA, hB]
  refine ⟨hiff, fun hcnt hcontra => ?_⟩
  rcases hiff.mp hcontra with ⟨hagg, _⟩ | ⟨hagg, _⟩ <;>
    rcases hagg with h5 | h5 <;> rw [hcnt] at h5 <;> cases h5

/-- Witness for C3: `SUM` over a text-typed value field is rejected with
`IncompatibleAggregation`. -/
theorem claim_C3_witness :
    transformDatasetToPivot dsC3 (cfgWith .SUM) = .error .incompatibleAggregation :=
  ((claim_C3 dsC3 (cfgWith .SUM) ⟨"row", "SingleLine.Text"⟩ ⟨"col", "SingleLine.Text"⟩
      ⟨"val", "SingleLine.Text"⟩ (by simp [dsC3]) rfl rfl rfl rfl rfl).1).mpr
    (Or.inl ⟨Or.inl rfl, rfl⟩)

/-! ### Characterization of the totals loops -/

theorem jsAdd_zero_left (v : JSNum) : jsAdd (JSNum.val 0) v = v := by
  cases v <;> simp [jsAdd]

theorem totals_loop_filterMap (agg : Agg) (f : String → Option JSNum)
    (keys : List String) (s0 : JSNum × ℕ) :
    keys.foldl
      (fun st k =>
        match f k with
        | none => st
        | some v => totalStep agg st v)
      s0 = (keys.filterMap f).foldl (totalStep agg) s0 := by
  induction keys generalizing s0 with
  | nil => rfl
  | cons k rest ih =>
    rw [List.foldl_cons]
    cases hk : f k with
    | none => simp [List.filterMap_cons, hk, ih]
    | some v => simp [List.filterMap_cons, hk, ih]

theorem sum_loop (agg : Agg) (h : agg = .COUNT ∨ agg = .SUM ∨ agg = .AVG)
    (vs : List JSNum) (t : JSNum) (n : ℕ) :
    vs.foldl (totalStep agg) (t, n) = (vs.foldl jsAdd t, n + vs.length) := by
  have hstep : ∀ (t : JSNum) (n : ℕ) (v : JSNum),
      totalStep agg (t, n) v = (jsAdd t v, n + 1) := by
    rcases h with rfl | rfl | rfl <;> intro t n v <;> rfl
  induction vs generalizing t n with
  | nil => simp
  | cons v rest ih =>
    rw [List.foldl_cons, hstep, ih]
    simp only [List.foldl_cons, List.length_cons, Prod.mk.injEq]
    exact ⟨by first | rfl | trivial, by omega⟩

theorem min_loop (vs : List JSNum) (t : JSNum) (n : ℕ) (h : 0 < n) :
    vs.foldl (totalStep .MIN) (t, n) = (vs.foldl jsMin2 t, n + vs.length) := by
  induction vs generalizing t n with
  | nil => simp
  | cons v rest ih =>
    rw [List.foldl_cons]
    have hstep : totalStep .MIN (t, n) v = (jsMin2 t v, n + 1) := by
      simp [totalStep, Nat.pos_iff_ne_zero.mp h]
    rw [hstep, ih _ _ (by omega)]
    simp only [List.foldl_cons, List.length_cons, Prod.mk.injEq]
    exact ⟨by first | rfl | trivial, by omega⟩

theorem max_loop (vs : List JSNum) (t : JSNum) (n : ℕ) (h : 0 < n) :
    vs.foldl (totalStep .MAX) (t, n) = (vs.foldl jsMax2 t, n + vs.length) := by
  induction vs generalizing t n with
  | nil => simp
  | cons v rest ih =>
    rw [List.foldl_cons]
    have hstep : totalStep .MAX (t, n) v = (jsMax2 t v, n + 1) := by
      simp [totalStep, Nat.pos_iff_ne_zero.mp h]
    rw [hstep, ih _ _ (by omega)]
    simp only [List.foldl_cons, List.length_cons, Prod.mk.injEq]
    exact ⟨by first | rfl | trivial, by omega⟩

/-- The axis-total loop, described declaratively: with no defined cell
value along the axis the total is `0` for `COUNT`/`SUM` and absent
otherwise; with defined cell values it folds them — summing for
`COUNT`/`SUM`, taking the unweighted mean for `AVG`, and the extremum for
`MIN`/`MAX`. -/
theorem totalOverKeys_eq (agg : Agg) (grid : List (String × JSNum))
    (cellKeys : List String) :
    totalOverKeys agg grid cellKeys =
      match cellKeys.filterMap (mapGet grid) with
      | [] => if agg = .COUNT ∨ agg = .SUM then some (.val 0) else none
      | v :: vs =>
        some (match agg with
          | .COUNT => List.foldl jsAdd v vs
          | .SUM => List.foldl jsAdd v vs
          | .AVG => jsDivNat (List.foldl jsAdd v vs) (vs.length + 1)
          | .MIN => List.foldl jsMin2 v vs
          | .MAX => List.foldl jsMax2 v vs) := by
  unfold totalOverKeys
  rw [totals_loop_filterMap]
  cases hvs : cellKeys.filterMap (mapGet grid) with
  | nil =>
    cases agg <;> simp
  | cons v vs =>
    cases agg with
    | COUNT =>
      rw [List.foldl_cons, show totalStep .COUNT (JSNum.val 0, 0) v
          = (jsAdd (JSNum.val 0) v, 1) from rfl,
        jsAdd_zero_left, sum_loop .COUNT (Or.inl rfl)]
      simp
    | SUM =>
      rw [List.foldl_cons, show totalStep .SUM (JSNum.val 0, 0) v
          = (jsAdd (JSNum.val 0) v, 1) from rfl,
        jsAdd_zero_left, sum_loop .SUM (Or.inr (Or.inl rfl))]
      simp
    | AVG =>
      rw [List.foldl_cons, show totalStep .AVG (JSNum.val 0, 0) v
          = (jsAdd (JSNum.val 0) v, 1) from rfl,
        jsAdd_zero_left, sum_loop .AVG (Or.inr (Or.inr rfl))]
      simp [Nat.add_comm]
    | MIN =>
      rw [List.foldl_cons, show totalStep .MIN (JSNum.val 0, 0) v = (v, 1) from rfl,
        min_loop vs v 1 (by omega)]
      simp
    | MAX =>
      rw [List.foldl_cons, show totalStep .MAX (JSNum.val 0, 0) v = (v, 1) from rfl,
        max_loop vs v 1 (by omega)]
      simp

/-- Counterexample for C4: under `AVERAGE`, the rendered total of column
"X" of `dsC4` is `(1 + 4) / 2 = 5/2` — the unweighted mean of its two cell
averages — while re-aggregating the column's pooled contributing values
`{1, 3, 5}` with the cell-level `AVERAGE` policy gives `3`, so the total
is not computed by the same aggregation policy as the cells. -/
theorem claim_C4_counterexample :
    transformDatasetToPivot dsC4 (cfgWith .AVG)
      = .ok ⟨["A", "B"], ["X"], [("A_|_X", .val 1), ("B_|_X", .val 4)]⟩ ∧
    hitValues (cfgWith .AVG) false dsC4.records = [.val 1, .val 3, .val 5] ∧
    columnTotal .AVG [("A_|_X", .val 1), ("B_|_X", .val 4)] ["A", "B"] "X"
      = some (.val (5 / 2)) ∧
    axisPolicyTotal .AVG [.val 1, .val 3, .val 5] = some (.val 3) ∧
    JSNum.val (5 / 2) ≠ JSNum.val 3 := by
  refine ⟨?_, ?_, ?_, ?_, ?_⟩
  · simp [transformDatasetToPivot, dsC1, dsC2, dsC3, dsC4, dsC5, dsC7, colsDec, colsTextVal,
      mkRec, cfgWith, findColumn, isLookupType, lookupTypes, isNumericType, isDateType,
      optionSetTypes, processRecord, deriveKey, getValue, getFormattedValue, mapGet, mapSet,
      addSet, cellKey, registerValue, registerNullCount, jsToNumber, jsToDateMillis,
      initState, buildGridData, aggregateCell, jsSum, jsAdd, jsDivNat, jsMinList, jsMaxList,
      jsMin2, jsMax2, sortSmart, smartLe, smartSortCmp, parseJSNumber, parseUnsigned,
      parseDecimalBody, splitFrac, parseExponentTail, parseRadix, isJSWhitespace, digitVal,
      digitsToNat, natCompare, tokenize, tokenizeAux, tokListCmp, tokCmp, natCmp,
      jsNumCompare, qCompare, jsValToString, List.insertionSort, List.orderedInsert,
      List.find?, List.foldl]
    all_goals norm_num
  · simp [hitValues, recordNumeric, getValue, mapGet, dsC4, colsDec, mkRec, cfgWith,
      jsToNumber]
  · simp [columnTotal, totalOverKeys, totalStep, mapGet, cellKey, jsAdd, jsDivNat]
    all_goals norm_num
  · simp [axisPolicyTotal, aggregateCell, jsSum, jsAdd, jsDivNat]
    all_goals norm_num
  · simp only [ne_eq, JSNum.val.injEq]
    norm_num

/-- Claim C4 (amended): each axis total walks the axis's cell keys over the
sparse grid; an axis with no defined cell value totals `0` under
`COUNT`/`SUM` and is absent under `MIN`/`MAX` (and `AVG`); an axis with
defined cell values folds those already-aggregated cell values — summing
them for `COUNT` and `SUM`, taking their minimum/maximum for `MIN`/`MAX`,
and for `AVERAGE` taking their unweighted mean (the mean of the cell
averages, not the mean of the axis's pooled record values). -/
theorem claim_C4 (agg : Agg) (grid : List (String × JSNum))
    (rowKeys columnKeys : List String) (colKey rowKey : String) :
    columnTotal agg grid rowKeys colKey =
      (match (rowKeys.map (fun rk => cellKey rk colKey)).filterMap (mapGet grid) with
       | [] => if agg = .COUNT ∨ agg = .SUM then some (.val 0) else none
       | v :: vs =>
         some (match agg with
           | .COUNT => List.foldl jsAdd v vs
           | .SUM => List.foldl jsAdd v vs
           | .AVG => jsDivNat (List.foldl jsAdd v vs) (vs.length + 1)
           | .MIN => List.foldl jsMin2 v vs
           | .MAX => List.foldl jsMax2 v vs)) ∧
    rowTotal agg grid columnKeys rowKey =
      (match (columnKeys.map (fun ck => cellKey rowKey ck)).filterMap (mapGet grid) with
       | [] => if agg = .COUNT ∨ agg = .SUM then some (.val 0) else none
       | v :: vs =>
         some (match agg with
           | .COUNT => List.foldl jsAdd v vs
           | .SUM => List.foldl jsAdd v vs
           | .AVG => jsDivNat (List.foldl jsAdd v vs) (vs.length + 1)
           | .MIN => List.foldl jsMin2 v vs
           | .MAX => List.foldl jsMax2 v vs)) :=
  ⟨totalOverKeys_eq agg grid _, totalOverKeys_eq agg grid _⟩

/-- Counterexample for C5: for `dsC5` under `AVERAGE` the grand total is
`(1 + 4) / 2 = 5/2`, the mean of the two per-row totals, while the mean of
all numeric contributing values `{1, 3, 5}` of the record set is `3`. -/
theorem claim_C5_counterexample :
    transformDatasetToPivot dsC5 (cfgWith .AVG)
      = .ok ⟨["A", "B"], ["X", "Y"],
          [("A_|_X", .val 1), ("B_|_X", .val 3), ("B_|_Y", .val 5)]⟩ ∧
    grandTotal .AVG [("A_|_X", .val 1), ("B_|_X", .val 3), ("B_|_Y", .val 5)]
        ["A", "B"] ["X", "Y"]
      = some (.val (5 / 2)) ∧
    specGrandAverage dsC5 (cfgWith .AVG) = some 3 ∧
    (5 : ℚ) / 2 ≠ 3 := by
  refine ⟨?_, ?_, ?_, ?_⟩
  · simp [transformDatasetToPivot, dsC1, dsC2, dsC3, dsC4, dsC5, dsC7, colsDec, colsTextVal,
      mkRec, cfgWith, findColumn, isLookupType, lookupTypes, isNumericType, isDateType,
      optionSetTypes, processRecord, deriveKey, getValue, getFormattedValue, mapGet, mapSet,
      addSet, cellKey, registerValue, registerNullCount, jsToNumber, jsToDateMillis,
      initState, buildGridData, aggregateCell, jsSum, jsAdd, jsDivNat, jsMinList, jsMaxList,
      jsMin2, jsMax2, sortSmart, smartLe, smartSortCmp, parseJSNumber, parseUnsigned,
      parseDecimalBody, splitFrac, parseExponentTail, parseRadix, isJSWhitespace, digitVal,
      digitsToNat, natCompare, tokenize, tokenizeAux, tokListCmp, tokCmp, natCmp,
      jsNumCompare, qCompare, jsValToString, List.insertionSort, List.orderedInsert,
      List.find?, List.foldl]
  · simp [grandTotal, rowTotal, totalOverKeys, totalStep, mapGet, cellKey, jsAdd,
      jsDivNat]
    all_goals norm_num
  · simp [specGrandAverage, recordNumeric, getValue, mapGet, dsC5, colsDec, mkRec,
      cfgWith, findColumn, isDateType, jsToNumber, List.find?]
    all_goals norm_num
  · norm_num

/-- Claim C5 (amended): under `AVERAGE` the grand total is the arithmetic
mean of the defined per-row totals (each itself the mean of that row's
cell averages), not the mean of all numeric contributing values of the
record set; with no defined row total it is absent. -/
theorem claim_C5 (grid : List (String × JSNum)) (rowKeys columnKeys : List String) :
    grandTotal .AVG grid rowKeys columnKeys =
      match rowKeys.filterMap (rowTotal .AVG grid columnKeys) with
      | [] => none
      | v :: vs => some (jsDivNat (List.foldl jsAdd v vs) (vs.length + 1)) := by
  unfold grandTotal
  rw [totals_loop_filterMap .AVG (rowTotal .AVG grid columnKeys)]
  cases hvs : rowKeys.filterMap (rowTotal .AVG grid columnKeys) with
  | nil => simp
  | cons v vs =>
    rw [List.foldl_cons, show totalStep .AVG (JSNum.val 0, 0) v
        = (jsAdd (JSNum.val 0) v, 1) from rfl,
      jsAdd_zero_left, sum_loop .AVG (Or.inr (Or.inr rfl))]
    simp [Nat.add_comm]

end CustomMatrix
